import Mathlib

/-
Verification of the hybrid retrieval engine of the ragapplications repository.

The Python sources are shallowly embedded: pure functions become Lean
functions on List Char / String / ℚ.  Python floats are modelled as exact
rationals (every concrete value appearing in the claims is exactly
representable in binary64, so no rounding behaviour is lost).  Calls into
third-party libraries (rank_bm25's BM25Okapi.get_scores, the OpenAI / faiss
embedding services) are the model boundary: the score or embedding arrays
they return are taken as parameters of the embedded search functions, and
theorems quantify over them.
-/

namespace Util

/-- ASCII decimal digit test; models the digits matched by the regex class
backslash-d on the inputs of this repository (which are ASCII). -/
def isDigitChar (c : Char) : Bool := '0' ≤ c && c ≤ '9'

/-- Digit class or comma, the character class of the regex used by
app_chat_rag2.parse_price. -/
def digitOrComma (c : Char) : Bool := isDigitChar c || c = ','

/-- Numeric value of a digit character. -/
def digitVal (c : Char) : Nat := c.toNat - 48

/-- Value of a digit string, most significant first. -/
def digitsToNat (l : List Char) : Nat := l.foldl (fun acc c => 10 * acc + digitVal c) 0

/-
Exact rational arithmetic.  The field operations of ℚ are compiled via
extern code and do not reduce inside the kernel, so the embeddings use the
following mkRat-based operations, proven equal to the field operations in
the theorems qadd_eq, qsub_eq, qmul_eq and qdiv_eq below.
-/

/-- Kernel-computable rational addition. -/
def qadd (a b : ℚ) : ℚ := mkRat (a.num * b.den + b.num * a.den) (a.den * b.den)

/-- Kernel-computable rational subtraction. -/
def qsub (a b : ℚ) : ℚ := mkRat (a.num * b.den - b.num * a.den) (a.den * b.den)

/-- Kernel-computable rational multiplication. -/
def qmul (a b : ℚ) : ℚ := mkRat (a.num * b.num) (a.den * b.den)

/-- Kernel-computable rational division (division by zero gives zero, as
for the field operation). -/
def qdiv (a b : ℚ) : ℚ := Rat.divInt (a.num * b.den) (a.den * b.num)

/-- Python str.lower restricted to ASCII letters (all corpus text that the
claims touch is ASCII apart from the currency sign, which lower leaves
unchanged). -/
def lowerChar (c : Char) : Char :=
  match c with
  | 'A' => 'a' | 'B' => 'b' | 'C' => 'c' | 'D' => 'd' | 'E' => 'e' | 'F' => 'f'
  | 'G' => 'g' | 'H' => 'h' | 'I' => 'i' | 'J' => 'j' | 'K' => 'k' | 'L' => 'l'
  | 'M' => 'm' | 'N' => 'n' | 'O' => 'o' | 'P' => 'p' | 'Q' => 'q' | 'R' => 'r'
  | 'S' => 's' | 'T' => 't' | 'U' => 'u' | 'V' => 'v' | 'W' => 'w' | 'X' => 'x'
  | 'Y' => 'y' | 'Z' => 'z'
  | c => c

/-- Lowercase a character list. -/
def pyLower (l : List Char) : List Char := l.map lowerChar

/-- Lowercase a string, modelling Python str.lower. -/
def pyLowerStr (s : String) : String := ⟨pyLower s.data⟩

/-- Does the list start with the given pattern? -/
def leadsWith : List Char → List Char → Bool
  | [], _ => true
  | _ :: _, [] => false
  | p :: ps, c :: cs => p = c && leadsWith ps cs

/-- Substring test, modelling the Python expression sub in hay. -/
def hasSub (sub : List Char) : List Char → Bool
  | [] => sub.isEmpty
  | c :: cs => leadsWith sub (c :: cs) || hasSub sub cs

/-- Substring test on strings. -/
def hasSubStr (sub hay : String) : Bool := hasSub sub.data hay.data

/-- Maximal runs of characters satisfying p, in order; models
re.findall of a one-class-plus pattern.  First argument is the run
accumulated so far, reversed; call with none. -/
def runsP (p : Char → Bool) : Option (List Char) → List Char → List (List Char)
  | none, [] => []
  | some acc, [] => [acc.reverse]
  | none, c :: cs => if p c then runsP p (some [c]) cs else runsP p none cs
  | some acc, c :: cs =>
    if p c then runsP p (some (c :: acc)) cs else acc.reverse :: runsP p none cs

/-- Scanner for the regex (runClass)+(backslash-dot digits+)? — a maximal
run of runC characters, optionally extended by a dot followed by at least
one digit.  State: current match (reversed) and whether we are past the dot.
Models Python re.findall with its leftmost, greedy, non-overlapping
semantics. -/
def numScan (runC : Char → Bool) : Option (List Char × Bool) → List Char → List (List Char)
  | none, [] => []
  | some (acc, _), [] => [acc.reverse]
  | none, c :: cs => if runC c then numScan runC (some ([c], false)) cs else numScan runC none cs
  | some (acc, false), '.' :: cs =>
    match cs with
    | [] => [acc.reverse]
    | c2 :: cs2 =>
      if isDigitChar c2 then numScan runC (some (c2 :: '.' :: acc, true)) cs2
      else acc.reverse ::
        (if runC c2 then numScan runC (some ([c2], false)) cs2 else numScan runC none cs2)
  | some (acc, false), c :: cs =>
    if runC c then numScan runC (some (c :: acc, false)) cs
    else acc.reverse :: numScan runC none cs
  | some (acc, true), c :: cs =>
    if isDigitChar c then numScan runC (some (c :: acc, true)) cs
    else acc.reverse ::
      (if runC c then numScan runC (some ([c], false)) cs else numScan runC none cs)

/-- Split a character list into its leading digits and the rest. -/
def splitNum : List Char → List Char × List Char
  | [] => ([], [])
  | c :: cs => if isDigitChar c then let r := splitNum cs; (c :: r.1, r.2) else ([], c :: cs)

/-- Python float() applied to a comma-stripped match of the numeric
scanner: digits, optionally a dot and more digits; none models the
ValueError branch (empty string).  Exact rational value. -/
def floatOfClean (l : List Char) : Option ℚ :=
  let ip := (splitNum l).1
  match (splitNum l).2 with
  | [] => if ip.isEmpty then none else some (digitsToNat ip)
  | '.' :: fp =>
    if fp.isEmpty then none
    else some (qadd (digitsToNat ip : ℚ) (qdiv (digitsToNat fp : ℚ) ((10 ^ fp.length : ℕ) : ℚ)))
  | _ => none

/-- Stable insertion used by sortLe. -/
def insertLe (le : α → α → Bool) (x : α) : List α → List α
  | [] => [x]
  | y :: ys => if le x y then x :: y :: ys else y :: insertLe le x ys

/-- Stable sort.  With le taken as greater-or-equal on a key this equals
Python sorted(..., key=key, reverse=True), which keeps the original order
of equal keys. -/
def sortLe (le : α → α → Bool) : List α → List α
  | [] => []
  | x :: xs => insertLe le x (sortLe le xs)

/-- Round-robin interleave, modelling the loop
for i in range(max_len): append daraz i; append startech i
shared by graphrag_final.py and app_graphrag_chat.py. -/
def rrInterleave : List α → List α → List α
  | [], s => s
  | d, [] => d
  | x :: d, y :: s => x :: y :: rrInterleave d s

/-- The lowercase letters; used to reason about lowerChar. -/
def lowerAlphabet : List Char :=
  ['a', 'b', 'c', 'd', 'e', 'f', 'g', 'h', 'i', 'j', 'k', 'l', 'm',
   'n', 'o', 'p', 'q', 'r', 's', 't', 'u', 'v', 'w', 'x', 'y', 'z']

/-- Python str.upper on a single ASCII character (used by str.capitalize). -/
def upperChar (c : Char) : Char :=
  match c with
  | 'a' => 'A' | 'b' => 'B' | 'c' => 'C' | 'd' => 'D' | 'e' => 'E' | 'f' => 'F'
  | 'g' => 'G' | 'h' => 'H' | 'i' => 'I' | 'j' => 'J' | 'k' => 'K' | 'l' => 'L'
  | 'm' => 'M' | 'n' => 'N' | 'o' => 'O' | 'p' => 'P' | 'q' => 'Q' | 'r' => 'R'
  | 's' => 'S' | 't' => 'T' | 'u' => 'U' | 'v' => 'V' | 'w' => 'W' | 'x' => 'X'
  | 'y' => 'Y' | 'z' => 'Z'
  | c => c

/-- Python str.capitalize for the all-lowercase inputs it receives here. -/
def capitalize (s : String) : String :=
  match s.data with
  | [] => ⟨[]⟩
  | c :: cs => ⟨upperChar c :: cs⟩

/-- Whitespace class of the regexes involved (backslash-s); ASCII model. -/
def isWsChar (c : Char) : Bool := c = ' ' || c = '\t' || c = '\n' || c = '\r'

/-- Lowercase letter or digit: the character class [a-z0-9]. -/
def isAlnumLower (c : Char) : Bool := ('a' ≤ c && c ≤ 'z') || isDigitChar c

/-- Python dict assignment d[k] = v on an insertion-ordered association
list: an existing key keeps its position and gets the new value, a new key
is appended. -/
def dictSet (d : List (String × α)) (k : String) (v : α) : List (String × α) :=
  match d with
  | [] => [(k, v)]
  | (k2, v2) :: rest => if k2 = k then (k2, v) :: rest else (k2, v2) :: dictSet rest k v

/-- Python dict lookup d.get(k). -/
def dictGet (d : List (String × α)) (k : String) : Option α :=
  (d.find? (fun p => p.1 = k)).map (fun p => p.2)

/-- Python k in d. -/
def dictHasKey (d : List (String × α)) (k : String) : Bool :=
  (d.find? (fun p => p.1 = k)).isSome

/-- Replace hyphens by spaces in a string, modelling
text.replace("-", " "). -/
def pyReplaceHyphen (s : String) : String :=
  ⟨s.data.map (fun c => if c = '-' then ' ' else c)⟩

/-- Case-insensitive literal match: pat (given lowercase) against the
head of l; returns the matched original characters and the rest. -/
def takeCI : List Char → List Char → Option (List Char × List Char)
  | [], l => some ([], l)
  | _ :: _, [] => none
  | p :: ps, c :: cs =>
    if lowerChar c = p then (takeCI ps cs).map (fun r => (c :: r.1, r.2)) else none

/-- The two continuations the greedy optional-whitespace backslash-s?
leaves: with the leading whitespace character consumed, or the input
unchanged.  At most one of them lets the following literal match, so the
greedy order does not matter. -/
def wsOpts (l : List Char) : List (List Char) :=
  match l with
  | c :: cs => if isWsChar c then [cs, c :: cs] else [l]
  | [] => [[]]

/-- Does an optional whitespace followed by case-insensitive GB start
here?  Tail of the RAM regex (backslash-d+)backslash-s?GB. -/
def ramTail (l : List Char) : Bool :=
  (wsOpts l).any (fun r => (takeCI ['g', 'b'] r).isSome)

/-- re.search of the RAM regex (backslash-d+)backslash-s?GB, IGNORECASE:
first position whose digit run is followed by optional whitespace and GB;
returns group 1, the digit run.  (A shortened digit run can never match —
the next character would be a digit where G is required — so only maximal
runs need checking, at every start position.) -/
def ramScan : List Char → Option (List Char)
  | [] => none
  | c :: cs =>
    if isDigitChar c then
      if ramTail (splitNum (c :: cs)).2 then some (splitNum (c :: cs)).1 else ramScan cs
    else ramScan cs

/-- Dot product of two rational vectors (np.dot on equal-length 1-d
arrays; the source always calls it with matching dimensions). -/
def dotQ (a b : List ℚ) : ℚ := ((a.zip b).map (fun p => qmul p.1 p.2)).foldl qadd 0

/-- Maximum of a rational list (np.max; callers guard against empty). -/
def listMax : List ℚ → ℚ
  | [] => 0
  | x :: xs => xs.foldl max x

/-- Minimum of a rational list (np.min; callers guard against empty). -/
def listMin : List ℚ → ℚ
  | [] => 0
  | x :: xs => xs.foldl min x

end Util

/-
graphrag_final.py — utilities cited by the claims.
-/

namespace GraphragFinal

/-- graphrag_final.parse_price: strips commas, extracts every digit run and
concatenates all of them into one number.
def parse_price(price_str): if not price_str: return 0.0;
nums = re.findall(r backslash-d+, price_str.replace(',', ''));
return float("".join(nums)) if nums else 0.0 -/
def parse_price (price_str : String) : ℚ :=
  if price_str = "" then 0
  else
    let nums := Util.runsP Util.isDigitChar none (price_str.data.filter (fun c => c ≠ ','))
    if nums.isEmpty then 0 else ((Util.digitsToNat nums.flatten : Nat) : ℚ)

/-- Scanner for the regex [a-z0-9]+(-[a-z0-9]+)* of
graphrag_final.SmartTokenizer: maximal alphanumeric runs in which an
internal hyphen is kept when flanked by alphanumerics on both sides.
First argument is the current token, reversed; call with none. -/
def hyphScan : Option (List Char) → List Char → List (List Char)
  | none, [] => []
  | some acc, [] => [acc.reverse]
  | none, c :: cs =>
    if Util.isAlnumLower c then hyphScan (some [c]) cs else hyphScan none cs
  | some acc, '-' :: cs =>
    match cs with
    | [] => [acc.reverse]
    | c2 :: cs2 =>
      if Util.isAlnumLower c2 then hyphScan (some (c2 :: '-' :: acc)) cs2
      else acc.reverse :: hyphScan none (c2 :: cs2)
  | some acc, c :: cs =>
    if Util.isAlnumLower c then hyphScan (some (c :: acc)) cs
    else acc.reverse :: hyphScan none cs

namespace SmartTokenizer

/-- graphrag_final.SmartTokenizer.tokenize: lowercase, then
re.findall(r [a-z0-9]+(-[a-z0-9]+)*, text) — hyphens inside words are
preserved, by the docstring's own design ("Preserves: i7-13700K"). -/
def tokenize (text : String) : List String :=
  (hyphScan none (Util.pyLower text.data)).map (fun l => (⟨l⟩ : String))

end SmartTokenizer

end GraphragFinal

/-
graphrag3.py — the Tokenizer V2 and (later) the weighted-fusion engine.
-/

namespace Graphrag3

namespace SmartTokenizer

/-- graphrag3.SmartTokenizer.tokenize: lowercase, replace each hyphen by a
space, then re.findall(r [a-z0-9]+, text). -/
def tokenize (text : String) : List String :=
  (Util.runsP Util.isAlnumLower none
    ((Util.pyLower text.data).map (fun c => if c = '-' then ' ' else c))).map
    (fun l => (⟨l⟩ : String))

end SmartTokenizer

end Graphrag3

/-
app_chat_rag2.py — parse_price (the variant whose docstring documents the
currency-merging fix) and, later, the hybrid search engine.
-/

namespace AppChatRag2

/-- Worker for stripCurrency; the fuel argument (at least the length of the
list) only makes the recursion structural, each step consumes between one
and three characters. -/
def stripCurrencyAux : Nat → List Char → List Char
  | 0, _ => []
  | _ + 1, [] => []
  | f + 1, c :: cs =>
    if c = '৳' then ' ' :: stripCurrencyAux f cs
    else if c = 'T' ∨ c = 't' then
      match cs with
      | k :: rest =>
        if k = 'k' ∨ k = 'K' then
          match rest with
          | '.' :: rest2 => ' ' :: stripCurrencyAux f rest2
          | _ => ' ' :: stripCurrencyAux f rest
        else c :: stripCurrencyAux f cs
      | [] => c :: stripCurrencyAux f cs
    else if c = 'B' ∨ c = 'b' then
      match cs with
      | d :: t :: rest =>
        if (d = 'D' ∨ d = 'd') ∧ (t = 'T' ∨ t = 't') then ' ' :: stripCurrencyAux f rest
        else c :: stripCurrencyAux f cs
      | _ => c :: stripCurrencyAux f cs
    else c :: stripCurrencyAux f cs

/-- The re.sub of app_chat_rag2.parse_price: every occurrence of the
taka sign, of Tk with an optional following dot, or of BDT — all case
insensitive, alternatives tried in that order at each position — is
replaced by a single space. -/
def stripCurrency (l : List Char) : List Char := stripCurrencyAux l.length l

/-- The list of numeric matches of app_chat_rag2.parse_price on a price
string: currency tokens replaced by spaces, then all groups matching
[digits-or-commas]+(dot digits+)? in order. -/
def priceMatches (price_str : String) : List (List Char) :=
  Util.numScan Util.digitOrComma none (stripCurrency price_str.data)

/-- The selection loop of app_chat_rag2.parse_price: walk the matches in
order, strip commas, parse as float (a failing parse is skipped by the
bare except), and return the first value strictly greater than 100;
0.0 when none qualifies. -/
def firstPlausible : List (List Char) → ℚ
  | [] => 0
  | m :: rest =>
    match Util.floatOfClean (m.filter (fun c => c ≠ ',')) with
    | none => firstPlausible rest
    | some v => if v > 100 then v else firstPlausible rest

/-- app_chat_rag2.parse_price: replace currency symbols by spaces so that
adjacent numbers stay separated, extract all numeric groups, return the
first one above the plausibility threshold 100. -/
def parse_price (price_str : String) : ℚ :=
  if price_str = "" then 0 else firstPlausible (priceMatches price_str)

/-- The values of the successfully parsed numeric groups, in match order;
used to state the policy that parse_price follows. -/
def extractedValues (price_str : String) : List ℚ :=
  (priceMatches price_str).filterMap (fun m => Util.floatOfClean (m.filter (fun c => c ≠ ',')))

end AppChatRag2

/-
app_graph_rag.py — the price-value parser (minimum-of-all-numbers policy).
-/

namespace AppGraphRag

/-- app_graph_rag._parse_price_value: strip commas, extract all
digits(.digits)? groups, return their minimum, or none when the string is
empty or has no numeric group. -/
def parse_price_value (s : String) : Option ℚ :=
  if s = "" then none
  else
    let ms := Util.numScan Util.isDigitChar none (s.data.filter (fun c => c ≠ ','))
    let vals := ms.filterMap Util.floatOfClean
    match vals with
    | [] => none
    | v :: vs => some (vs.foldl min v)

/-- The brand list of app_graph_rag.extract_attributes, in source order. -/
def brands : List String :=
  ["Lenovo", "HP", "ASUS", "Gigabyte", "MSI", "Dell", "Acer", "Apple",
   "Samsung", "Xiaomi", "Realme", "OnePlus", "Infinix", "Tecno", "Vivo",
   "Oppo", "Honor", "Motorola", "Nokia", "Walton", "Chuwi", "ZTE",
   "Sony", "Haier", "Singer", "TCL", "Dahua", "Hikvision", "TP-Link",
   "Tenda", "Netis", "Mercusys", "ZKTeco", "DJI", "GoPro", "Panda", "Lotto", "Bata"]

/-- Category substrings that switch on the electronics branch. -/
def electronicsCats : List String :=
  ["laptop", "phone", "tablet", "monitor", "router", "smart", "watch"]

/-- Category substrings that switch on the fashion branch. -/
def fashionCats : List String := ["sneaker", "shirt", "polo", "jersey"]

/-- Color vocabulary of the fashion branch, in source order. -/
def colors : List String :=
  ["black", "white", "blue", "red", "green", "grey", "yellow", "navy", "olive"]

/-- The storage unit alternation (GB|TB), case-insensitive, returning the
unit exactly as matched plus the rest. -/
def storageUnit (l : List Char) : Option (List Char × List Char) :=
  match Util.takeCI ['g', 'b'] l with
  | some r => some r
  | none => Util.takeCI ['t', 'b'] l

/-- The storage-type alternation (SSD|HDD|NVMe|ROM), case-insensitive. -/
def storageType (l : List Char) : Bool :=
  [['s', 's', 'd'], ['h', 'd', 'd'], ['n', 'v', 'm', 'e'], ['r', 'o', 'm']].any
    (fun w => (Util.takeCI w l).isSome)

/-- After the digit run of the storage regex: optional whitespace, a unit,
optional whitespace, a storage type; returns the matched unit text. -/
def storageAfterRun (rest : List Char) : Option (List Char) :=
  (Util.wsOpts rest).firstM (fun r =>
    match storageUnit r with
    | some (u, r2) => if (Util.wsOpts r2).any storageType then some u else none
    | none => none)

/-- re.search of the storage regex
(backslash-d+)backslash-s?(GB|TB)backslash-s?(SSD|HDD|NVMe|ROM),
IGNORECASE; returns groups 1 and 2. -/
def storageScan : List Char → Option (List Char × List Char)
  | [] => none
  | c :: cs =>
    if Util.isDigitChar c then
      match storageAfterRun (Util.splitNum (c :: cs)).2 with
      | some u => some ((Util.splitNum (c :: cs)).1, u)
      | none => storageScan cs
    else storageScan cs

/-- The CPU-family branch chain of app_graph_rag.extract_attributes,
operating on the lowercase title (substring tests, in source order). -/
def cpuSpecs (tl : String) (specs : List (String × String)) : List (String × String) :=
  if Util.hasSubStr "ryzen" tl then
    if Util.hasSubStr " 3 " tl then Util.dictSet specs "CPU" "Ryzen 3"
    else if Util.hasSubStr " 5 " tl then Util.dictSet specs "CPU" "Ryzen 5"
    else if Util.hasSubStr " 7 " tl then Util.dictSet specs "CPU" "Ryzen 7"
    else if Util.hasSubStr " 9 " tl then Util.dictSet specs "CPU" "Ryzen 9"
    else specs
  else if Util.hasSubStr "core" tl ∨ Util.hasSubStr "intel" tl then
    if Util.hasSubStr "i3" tl then Util.dictSet specs "CPU" "Core i3"
    else if Util.hasSubStr "i5" tl then Util.dictSet specs "CPU" "Core i5"
    else if Util.hasSubStr "i7" tl then Util.dictSet specs "CPU" "Core i7"
    else if Util.hasSubStr "i9" tl then Util.dictSet specs "CPU" "Core i9"
    else specs
  else if Util.hasSubStr "m1" tl then Util.dictSet specs "CPU" "Apple M1"
  else if Util.hasSubStr "m2" tl then Util.dictSet specs "CPU" "Apple M2"
  else if Util.hasSubStr "m3" tl then Util.dictSet specs "CPU" "Apple M3"
  else if Util.hasSubStr "m4" tl then Util.dictSet specs "CPU" "Apple M4"
  else if Util.hasSubStr "snapdragon" tl then Util.dictSet specs "CPU" "Snapdragon"
  else specs

/-- The fashion branch: material flags (later assignments overwrite the
Material entry in place) and the first matching color, capitalized. -/
def fashionSpecs (tl : String) (specs : List (String × String)) : List (String × String) :=
  let s1 := if Util.hasSubStr "cotton" tl then Util.dictSet specs "Material" "Cotton" else specs
  let s2 := if Util.hasSubStr "leather" tl then Util.dictSet s1 "Material" "Leather" else s1
  let s3 := if Util.hasSubStr "mesh" tl then Util.dictSet s2 "Material" "Mesh" else s2
  let s4 := if Util.hasSubStr "canvas" tl then Util.dictSet s3 "Material" "Canvas" else s3
  match colors.find? (fun col => Util.hasSubStr col tl) with
  | some col => Util.dictSet s4 "Color" (Util.capitalize col)
  | none => s4

/-- app_graph_rag.extract_attributes: brand by first list hit in the
lowercase title; if the category looks electronic, RAM / Storage / CPU
family; if it looks like apparel, material and color.  A pure function of
its inputs (no randomness, no external calls), so identical inputs give
identical output — the spec's determinism requirement is inherent in this
embedding. -/
def extract_attributes (title category : String) : List (String × String) :=
  let title_lower := Util.pyLowerStr title
  let cat_lower := Util.pyLowerStr category
  let specs : List (String × String) := []
  let specs :=
    match brands.find? (fun b => Util.hasSubStr (Util.pyLowerStr b) title_lower) with
    | some b => Util.dictSet specs "Brand" b
    | none => specs
  if electronicsCats.any (fun x => Util.hasSubStr x cat_lower) then
    let specs :=
      match Util.ramScan title.data with
      | some r => Util.dictSet specs "RAM" ((⟨r⟩ : String) ++ "GB")
      | none => specs
    let specs :=
      match storageScan title.data with
      | some (g1, g2) => Util.dictSet specs "Storage" ((⟨g1⟩ : String) ++ (⟨g2⟩ : String))
      | none => specs
    cpuSpecs title_lower specs
  else if fashionCats.any (fun x => Util.hasSubStr x cat_lower) then
    fashionSpecs title_lower specs
  else specs

end AppGraphRag

/-
graph_rag.py — the simplified extract_attributes.
-/

namespace GraphRagPy

/-- The brand list of graph_rag.extract_attributes, in source order. -/
def brands : List String :=
  ["Lenovo", "HP", "ASUS", "Gigabyte", "MSI", "Dell", "Acer", "Apple",
   "Samsung", "Xiaomi", "Realme", "OnePlus", "Infinix", "Tecno", "Vivo",
   "Oppo", "Honor", "Motorola", "Nokia", "Walton"]

/-- graph_rag.extract_attributes: brand by first list hit in the lowercase
title, then, when the lowercase title contains gb, the RAM regex
(backslash-d+)backslash-s?gb with IGNORECASE; the category parameter is
unused by the source.  Pure, hence deterministic. -/
def extract_attributes (title category : String) : List (String × String) :=
  let title_lower := Util.pyLowerStr title
  let specs : List (String × String) := []
  let specs :=
    match brands.find? (fun b => Util.hasSubStr (Util.pyLowerStr b) title_lower) with
    | some b => Util.dictSet specs "Brand" b
    | none => specs
  if Util.hasSubStr "gb" title_lower then
    match Util.ramScan title.data with
    | some r => Util.dictSet specs "RAM" ((⟨r⟩ : String) ++ "GB")
    | none => specs
  else specs

end GraphRagPy

/-
graphrag_final.py — the dual-index GraphRAG engine.  The two
BM25Okapi.get_scores arrays (one per partition) are parameters of search:
they are the library boundary.  rank_bm25 guarantees that a document
sharing no token with the query scores exactly 0.
-/

namespace GraphragFinal

/-- The product record of graphrag_final.py. -/
structure ProductDoc where
  doc_id : String
  title : String
  source : String
  category : String
  brand : String
  price_val : ℚ
  url : String
  raw_text : String
deriving DecidableEq

/-- Placeholder record for out-of-range list indexing; the source never
indexes out of range because each score array has the length of the
document list it was built from. -/
def dummyDoc : ProductDoc := ⟨"", "", "", "", "", 0, "", ""⟩

/-- ProductDoc.clean_text, the string indexed by BM25. -/
def clean_text (d : ProductDoc) : String :=
  d.title ++ " " ++ d.brand ++ " " ++ d.category ++ " " ++ d.source

/-- The Daraz partition: docs whose lowercase source contains daraz. -/
def darazDocs (docs : List ProductDoc) : List ProductDoc :=
  docs.filter (fun d => Util.hasSubStr "daraz" (Util.pyLowerStr d.source))

/-- The StarTech partition. -/
def startechDocs (docs : List ProductDoc) : List ProductDoc :=
  docs.filter (fun d => Util.hasSubStr "startech" (Util.pyLowerStr d.source))

/-- GraphRAGIndex._query_bm25: rank the indices of the score array in
descending score order (Python's stable sorted with reverse=True keeps
ascending index order on ties), keep the first k, drop non-positive
scores, map to documents.  An empty partition means _build_bm25 returned
None, and the guard then returns the empty list — both conditions of the
source's "if not bm25_idx or not doc_source" coincide. -/
def queryBm25 (doc_source : List ProductDoc) (scores : List ℚ) (k : ℕ) : List ProductDoc :=
  if doc_source.isEmpty then []
  else
    let top_n := (Util.sortLe (fun i j => decide (scores.getD j 0 ≤ scores.getD i 0))
      (List.range scores.length)).take k
    (top_n.filter (fun i => decide ((0 : ℚ) < scores.getD i 0))).map
      (fun i => doc_source.getD i dummyDoc)

/-- The facet nodes _build_knowledge_graph links a product to: its brand
node unless the brand is empty or a sentinel, its category node unless the
category is empty or a sentinel.  This list is also the networkx adjacency
of the product node, in insertion order. -/
def facetNodes (d : ProductDoc) : List String :=
  (if d.brand ≠ "" ∧ d.brand ∉ (["generic", "unknown", "other"] : List String) then
    ["BRAND:" ++ d.brand] else []) ++
  (if d.category ≠ "" ∧ d.category ∉ (["general", "unknown"] : List String) then
    ["CAT:" ++ d.category] else [])

/-- The networkx adjacency of a facet node: every product connected to it,
in the insertion order of _build_knowledge_graph, i.e. document order. -/
def nodeProducts (docs : List ProductDoc) (node : String) : List String :=
  (docs.filter (fun d => (facetNodes d).contains node)).map (fun d => d.doc_id)

/-- The doc_map dict built by comprehension: on duplicate ids the later
document wins, as in Python. -/
def lookupDoc (docs : List ProductDoc) (id : String) : Option ProductDoc :=
  docs.reverse.find? (fun d => d.doc_id = id)

/-- Innermost loop of the graph expansion: walk the sibling ids of one
facet node, appending each sibling that is not the seed, not yet seen and
present in doc_map, and recording it as seen. -/
def sibLoop (docs : List ProductDoc) (seedId : String) :
    List String → List ProductDoc → List String → List ProductDoc × List String
  | [], hits, seen => (hits, seen)
  | sib :: rest, hits, seen =>
    if sib ≠ seedId ∧ ¬ seen.contains sib ∧ (lookupDoc docs sib).isSome then
      sibLoop docs seedId rest (hits ++ [(lookupDoc docs sib).getD dummyDoc]) (seen ++ [sib])
    else sibLoop docs seedId rest hits seen

/-- Middle loop: over the facet neighbors of one seed. -/
def nodeLoop (docs : List ProductDoc) (seedId : String) :
    List String → List ProductDoc → List String → List ProductDoc × List String
  | [], hits, seen => (hits, seen)
  | node :: rest, hits, seen =>
    let r := sibLoop docs seedId (nodeProducts docs node) hits seen
    nodeLoop docs seedId rest r.1 r.2

/-- Outer loop: over the seeds (the source's try never raises here — every
seed is a node of the graph, being one of the indexed documents). -/
def seedLoop (docs : List ProductDoc) :
    List ProductDoc → List ProductDoc → List String → List ProductDoc × List String
  | [], hits, seen => (hits, seen)
  | seed :: rest, hits, seen =>
    let r := nodeLoop docs seed.doc_id (facetNodes seed) hits seen
    seedLoop docs rest r.1 r.2

/-- The graph_hits list of GraphRAGIndex.search: siblings of the top two
interleaved hits, collected with seen_ids initialized to the ids of the
interleaved list. -/
def graphHits (docs : List ProductDoc) (combined : List ProductDoc) : List ProductDoc :=
  (seedLoop docs (combined.take 2) [] (combined.map (fun d => d.doc_id))).1

/-- The Daraz hit list of search for a given total_k. -/
def darazHits (docs : List ProductDoc) (scoresD : List ℚ) (total_k : ℕ) : List ProductDoc :=
  queryBm25 (darazDocs docs) scoresD (total_k / 2)

/-- The StarTech hit list of search. -/
def startechHits (docs : List ProductDoc) (scoresS : List ℚ) (total_k : ℕ) : List ProductDoc :=
  queryBm25 (startechDocs docs) scoresS (total_k / 2)

/-- GraphRAGIndex.search of graphrag_final.py: query each partition for
total_k // 2 hits, interleave round robin, then — when anything was found —
append up to five unseen graph siblings of the top two hits.  The returned
list is not truncated to total_k. -/
def search (docs : List ProductDoc) (scoresD scoresS : List ℚ) (total_k : ℕ) :
    List ProductDoc :=
  let combined := Util.rrInterleave (darazHits docs scoresD total_k)
    (startechHits docs scoresS total_k)
  if combined.isEmpty then combined
  else combined ++ (graphHits docs combined).take 5

end GraphragFinal

/-
app_chat_rag2.py — the hybrid (semantic + keyword) engine.  The corpus
embedding matrix, the query embedding and the full BM25 score array are
parameters: they are what the OpenAI embedding service and
BM25Okapi.get_scores return.
-/

namespace AppChatRag2

/-- The product record of app_chat_rag2.py (the embedding field lives in
the parameterized corpus-embedding matrix). -/
structure ProductDoc where
  doc_id : String
  title : String
  source : String
  category : String
  price_value : ℚ
  url : String
  raw_md : String
deriving DecidableEq

/-- The SearchResult dataclass (reason defaults to the empty string). -/
structure SearchResult where
  doc : ProductDoc
  score : ℚ
  reason : String
deriving DecidableEq

/-- The filter dict extracted from the user query; absent keys are none.
Python truthiness makes a 0 price bound or an empty category behave like
an absent key. -/
structure Filters where
  max_price : Option ℚ
  min_price : Option ℚ
  category : Option String
deriving DecidableEq

/-- Python truthiness of an optional number: false for None and 0. -/
def truthyQ : Option ℚ → Bool
  | none => false
  | some v => v ≠ 0

/-- The two price continues of HybridSearchEngine.search: drop when a
truthy max_price is exceeded, drop when the price is below a truthy
min_price. -/
def pricePass (f : Filters) (p : ProductDoc) : Bool :=
  !(truthyQ f.max_price && decide (f.max_price.getD 0 < p.price_value)) &&
  !(truthyQ f.min_price && decide (p.price_value < f.min_price.getD 0))

/-- The category continue: bidirectional substring test on lowercase
categories, with the laptop/macbook/notebook carve-out. -/
def catPass (f : Filters) (p : ProductDoc) : Bool :=
  match f.category with
  | none => true
  | some qc0 =>
    if qc0 = "" then true
    else
      let q_cat := Util.pyLowerStr qc0
      let p_cat := Util.pyLowerStr p.category
      if ¬ Util.hasSubStr q_cat p_cat ∧ ¬ Util.hasSubStr p_cat q_cat then
        if Util.hasSubStr "laptop" q_cat ∧
            (Util.hasSubStr "macbook" p_cat ∨ Util.hasSubStr "notebook" p_cat) then true
        else false
      else true

/-- The hard-filter stage of search: the surviving (index, product) pairs,
in corpus order. -/
def validPairs (products : List ProductDoc) (f : Filters) : List (ℕ × ProductDoc) :=
  products.enum.filter (fun ip => pricePass f ip.2 && catPass f ip.2)

/-- The surviving indices (the valid_indices list of the source). -/
def validIndices (products : List ProductDoc) (f : Filters) : List ℕ :=
  (validPairs products f).map (fun ip => ip.1)

/-- Min-max normalization of a score array; an empty or constant array
normalizes to all zeros (the norm helper inside search). -/
def normArr (arr : List ℚ) : List ℚ :=
  if arr.length = 0 ∨ Util.listMax arr = Util.listMin arr then arr.map (fun _ => 0)
  else arr.map (fun x => Util.qdiv (Util.qsub x (Util.listMin arr))
    (Util.qsub (Util.listMax arr) (Util.listMin arr)))

/-- HybridSearchEngine.search: hard filters, then semantic scores (dot
products against the query embedding), keyword scores (BM25 array at the
surviving indices), 0.7/0.3 fusion of the min-max-normalized arrays,
stable descending sort, truncation to top_k. -/
def search (products : List ProductDoc) (corpusEmb : List (List ℚ)) (qEmb : List ℚ)
    (bm25Full : List ℚ) (f : Filters) (top_k : ℕ) : List SearchResult :=
  let valid := validPairs products f
  if valid.isEmpty then []
  else
    let semScores := valid.map (fun ip => Util.dotQ (corpusEmb.getD ip.1 []) qEmb)
    let kwScores := valid.map (fun ip => bm25Full.getD ip.1 0)
    let finalScores := (normArr semScores).zipWith
      (fun a b => Util.qadd (Util.qmul (mkRat 7 10) a) (Util.qmul (mkRat 3 10) b))
      (normArr kwScores)
    let results := (valid.zip finalScores).map (fun pr => SearchResult.mk pr.1.2 pr.2 "")
    (Util.sortLe (fun a b => decide (b.score ≤ a.score)) results).take top_k

end AppChatRag2

/-
app_graph_rag.py — the vector-search + graph-reasoning pipeline.  The
candidate id list (what faiss returns, mapped through engine.doc_ids) is a
parameter of graph_rag_search.
-/

namespace AppGraphRag

/-- The product record of app_graph_rag.py. -/
structure ProductDoc where
  doc_id : String
  title : String
  source : String
  category : String
  price_value : Option ℚ
  rating_avg : Option ℚ
  rating_cnt : Option ℕ
  url : String
  raw_md : String
  extracted_specs : List (String × String)
deriving DecidableEq

/-- Python truthiness of the optional price fields. -/
def truthyQ : Option ℚ → Bool
  | none => false
  | some v => v ≠ 0

/-- The price check of graph_rag_search: a product is invalidated only
when the max_price constraint is truthy, the product price is truthy
(known and nonzero), and the price exceeds the constraint.  An unknown or
zero price is never rejected. -/
def priceValid (maxPrice : Option ℚ) (priceValue : Option ℚ) : Bool :=
  !(truthyQ maxPrice && truthyQ priceValue && decide (maxPrice.getD 0 < priceValue.getD 0))

/-- The product_map dict (later duplicates win, as in Python). -/
def lookupDoc (docs : List ProductDoc) (id : String) : Option ProductDoc :=
  docs.reverse.find? (fun d => d.doc_id = id)

/-- The candidate loop of graph_rag_search: keep price-valid candidates in
order, stopping as soon as top_k results are collected.  (The Samsung
graph check in the source is a no-op pass; a candidate id outside
product_map cannot occur since candidates come from engine.doc_ids.) -/
def collectValid (docs : List ProductDoc) (maxPrice : Option ℚ) (top_k : ℕ) :
    List String → List ProductDoc → List ProductDoc
  | [], acc => acc
  | id :: rest, acc =>
    match lookupDoc docs id with
    | none => collectValid docs maxPrice top_k rest acc
    | some p =>
      if priceValid maxPrice p.price_value then
        if top_k ≤ (acc ++ [p]).length then acc ++ [p]
        else collectValid docs maxPrice top_k rest (acc ++ [p])
      else collectValid docs maxPrice top_k rest acc

/-- graph_rag_search of app_graph_rag.py, with the vector-retrieval
candidates and the parsed max-price constraint as inputs. -/
def graph_rag_search (docs : List ProductDoc) (candidates : List String)
    (maxPrice : Option ℚ) (top_k : ℕ) : List ProductDoc :=
  collectValid docs maxPrice top_k candidates []

end AppGraphRag

/-
graphrag3.py — the weighted-fusion engine, whose Config declares
GRAPH_EXPANSION_LIMIT = 5 that search never reads.
-/

namespace Graphrag3

/-- Config.TOP_K_RETRIEVAL of graphrag3.py. -/
def TOP_K_RETRIEVAL : ℕ := 15

/-- Config.GRAPH_EXPANSION_LIMIT of graphrag3.py — declared, documented as
the expansion cap, and never used anywhere in the file. -/
def GRAPH_EXPANSION_LIMIT : ℕ := 5

/-- The product record of graphrag3.py. -/
structure ProductDoc where
  doc_id : String
  title : String
  source : String
  category : String
  brand : String
  price_val : ℚ
  url : String
  raw_text : String
  relevance_score : ℚ
deriving DecidableEq

/-- Placeholder for out-of-range indexing (unreachable in source use). -/
def dummyDoc : ProductDoc := ⟨"", "", "", "", "", 0, "", "", 0⟩

/-- ProductDoc.clean_token_string. -/
def clean_token_string (d : ProductDoc) : String :=
  d.title ++ " " ++ d.brand ++ " " ++ d.title ++ " " ++ d.category

/-- HybridSearchEngine._build_bm25 calls BM25Okapi(tokenized_corpus)
unconditionally; rank_bm25's _initialize computes avgdl = num_doc /
corpus_size and raises ZeroDivisionError when the corpus is empty.  none
models that exception escaping the constructor. -/
def buildBm25 (docs : List ProductDoc) : Option Unit :=
  if docs.isEmpty then none else some ()

/-- HybridSearchEngine.__init__: building the BM25 index is the only
fallible step; on an empty document list the ZeroDivisionError escapes and
no engine is produced. -/
def initEngine (docs : List ProductDoc) : Option (List ProductDoc) :=
  match buildBm25 docs with
  | none => none
  | some _ => some docs

/-- Facet nodes of _build_knowledge_graph: brand edge unless empty or
generic, category edge unless empty or general. -/
def facetNodes (d : ProductDoc) : List String :=
  (if d.brand ≠ "" ∧ d.brand ≠ "generic" then ["BRAND:" ++ d.brand] else []) ++
  (if d.category ≠ "" ∧ d.category ≠ "general" then ["CAT:" ++ d.category] else [])

/-- Adjacency of a facet node, in insertion (document) order. -/
def nodeProducts (docs : List ProductDoc) (node : String) : List String :=
  (docs.filter (fun d => (facetNodes d).contains node)).map (fun d => d.doc_id)

/-- The doc_map dict. -/
def lookupDoc (docs : List ProductDoc) (id : String) : Option ProductDoc :=
  docs.reverse.find? (fun d => d.doc_id = id)

/-- The BM25 stage of search: indices sorted by descending raw score
(stable), first TOP_K_RETRIEVAL * 2 kept, non-positive scores skipped, and
each surviving document's id mapped to its score normalized by the best
raw score (the source multiplies by 1.0, kept here literally). -/
def candLoop (docs : List ProductDoc) (raw : List ℚ) (maxScore : ℚ) :
    List ℕ → List (String × ℚ) → List (String × ℚ)
  | [], acc => acc
  | i :: rest, acc =>
    if raw.getD i 0 ≤ 0 then candLoop docs raw maxScore rest acc
    else candLoop docs raw maxScore rest
      (Util.dictSet acc (docs.getD i dummyDoc).doc_id
        (Util.qmul (Util.qdiv (raw.getD i 0) maxScore) 1))

/-- The candidates dict after Step 1 of search (before graph expansion). -/
def bm25Candidates (docs : List ProductDoc) (raw : List ℚ) : List (String × ℚ) :=
  let top_n := (Util.sortLe (fun i j => decide (raw.getD j 0 ≤ raw.getD i 0))
    (List.range raw.length)).take (TOP_K_RETRIEVAL * 2)
  let maxScore : ℚ :=
    match top_n with
    | [] => 1
    | i :: _ => raw.getD i 0
  candLoop docs raw maxScore top_n []

/-- The ids of the documents found by the BM25 stage. -/
def bm25CandidateIds (docs : List ProductDoc) (raw : List ℚ) : List String :=
  (bm25Candidates docs raw).map (fun p => p.1)

/-- Sibling loop of the graph expansion: boost an existing candidate, or
inject a new discovery with the bare boost (0.3 via a brand node, 0.1 via
a category node) — with no cap on how many siblings are injected. -/
def sibBoostLoop (docs : List ProductDoc) (seedId : String) (node : String) :
    List String → List (String × ℚ) → List (String × ℚ)
  | [], cands => cands
  | sib :: rest, cands =>
    if sib = seedId then sibBoostLoop docs seedId node rest cands
    else
      let boost : ℚ := if Util.hasSubStr "BRAND:" node then mkRat 3 10 else mkRat 1 10
      if Util.dictHasKey cands sib then
        sibBoostLoop docs seedId node rest
          (Util.dictSet cands sib (Util.qadd ((Util.dictGet cands sib).getD 0) boost))
      else if (lookupDoc docs sib).isSome then
        sibBoostLoop docs seedId node rest (Util.dictSet cands sib boost)
      else sibBoostLoop docs seedId node rest cands

/-- Loop over the facet neighbors of one seed. -/
def nodeBoostLoop (docs : List ProductDoc) (seedId : String) :
    List String → List (String × ℚ) → List (String × ℚ)
  | [], cands => cands
  | node :: rest, cands =>
    nodeBoostLoop docs seedId rest (sibBoostLoop docs seedId node (nodeProducts docs node) cands)

/-- Loop over the top three seeds (the graph neighbors of a seed id are
the facet nodes of the document carrying that id). -/
def seedBoostLoop (docs : List ProductDoc) :
    List String → List (String × ℚ) → List (String × ℚ)
  | [], cands => cands
  | seedId :: rest, cands =>
    let nbrs := ((lookupDoc docs seedId).map facetNodes).getD []
    seedBoostLoop docs rest (nodeBoostLoop docs seedId nbrs cands)

/-- The candidates dict after graph expansion: the top three candidate ids
by score seed an uncapped sibling boost pass. -/
def expandedCandidates (docs : List ProductDoc) (raw : List ℚ) : List (String × ℚ) :=
  let cands := bm25Candidates docs raw
  let seeds := (Util.sortLe
    (fun i j => decide ((Util.dictGet cands j).getD 0 ≤ (Util.dictGet cands i).getD 0))
    (cands.map (fun p => p.1))).take 3
  seedBoostLoop docs seeds cands

/-- HybridSearchEngine.search of graphrag3.py: tokenize the query (empty
token list returns nothing), score via BM25 (the getScores parameter is
the BM25Okapi.get_scores call), build the candidate dict, expand it
through the graph, and return the TOP_K_RETRIEVAL best-scored documents
with their relevance filled in. -/
def search (docs : List ProductDoc) (getScores : List String → List ℚ)
    (query : String) : List ProductDoc :=
  let tq := SmartTokenizer.tokenize query
  if tq.isEmpty then []
  else
    let raw := getScores tq
    let cands := expandedCandidates docs raw
    let finalIds := (Util.sortLe
      (fun i j => decide ((Util.dictGet cands j).getD 0 ≤ (Util.dictGet cands i).getD 0))
      (cands.map (fun p => p.1))).take TOP_K_RETRIEVAL
    finalIds.filterMap (fun id => (lookupDoc docs id).map
      (fun d => { d with relevance_score := (Util.dictGet cands id).getD 0 }))

end Graphrag3

/-
app_graphrag_chat.py — the dual-index variant whose ProductDoc is a plain
(non-frozen, eq-generating) dataclass, hence unhashable in Python.
-/

namespace AppGraphragChat

/-- The product record of app_graphrag_chat.py: a dataclass with the
default eq=True and frozen=False, so Python sets its __hash__ to None and
instances cannot be added to a set. -/
structure ProductDoc where
  doc_id : String
  title : String
  source : String
  category : String
  brand : String
  price_val : ℚ
  url : String
  raw_text : String
deriving DecidableEq

/-- False: ProductDoc instances are unhashable (dataclass with eq and no
frozen). -/
def productDocHashable : Bool := false

/-- Placeholder record (unreachable in source use). -/
def dummyDoc : ProductDoc := ⟨"", "", "", "", "", 0, "", ""⟩

/-- The Daraz partition. -/
def darazDocs (docs : List ProductDoc) : List ProductDoc :=
  docs.filter (fun d => Util.hasSubStr "daraz" (Util.pyLowerStr d.source))

/-- The StarTech partition. -/
def startechDocs (docs : List ProductDoc) : List ProductDoc :=
  docs.filter (fun d => Util.hasSubStr "startech" (Util.pyLowerStr d.source))

/-- GraphRAGIndex._query_bm25 of app_graphrag_chat.py (same ranking as the
graphrag_final variant; scores parameterize the BM25Okapi call). -/
def queryBm25 (doc_source : List ProductDoc) (scores : List ℚ) (k : ℕ) : List ProductDoc :=
  if doc_source.isEmpty then []
  else
    let top_n := (Util.sortLe (fun i j => decide (scores.getD j 0 ≤ scores.getD i 0))
      (List.range scores.length)).take k
    (top_n.filter (fun i => decide ((0 : ℚ) < scores.getD i 0))).map
      (fun i => doc_source.getD i dummyDoc)

/-- Facet nodes: brand edge unless generic or empty; category edge for any
non-empty category (this variant has no general-category exclusion). -/
def facetNodes (d : ProductDoc) : List String :=
  (if d.brand ≠ "" ∧ d.brand ≠ "generic" then ["BRAND:" ++ d.brand] else []) ++
  (if d.category ≠ "" then ["CAT:" ++ d.category] else [])

/-- Adjacency of a facet node, in insertion order. -/
def nodeProducts (docs : List ProductDoc) (node : String) : List String :=
  (docs.filter (fun d => (facetNodes d).contains node)).map (fun d => d.doc_id)

/-- The doc_map dict. -/
def lookupDoc (docs : List ProductDoc) (id : String) : Option ProductDoc :=
  docs.reverse.find? (fun d => d.doc_id = id)

/-- graph_hits.add(...) on a Python set: for an unhashable element the add
raises TypeError before mutating the set; none models that exception. -/
def addDoc (hits : List ProductDoc) (d : ProductDoc) : Option (List ProductDoc) :=
  if productDocHashable then some (if hits.contains d then hits else hits ++ [d])
  else none

/-- Sibling loop of the expansion; the boolean is true when a TypeError
aborted the loop, with the set state at that moment. -/
def sibLoop (docs : List ProductDoc) (seedId : String) :
    List String → List ProductDoc → List ProductDoc × Bool
  | [], hits => (hits, false)
  | sib :: rest, hits =>
    if sib ≠ seedId ∧ (lookupDoc docs sib).isSome then
      match addDoc hits ((lookupDoc docs sib).getD dummyDoc) with
      | none => (hits, true)
      | some h2 => sibLoop docs seedId rest h2
    else sibLoop docs seedId rest hits

/-- Loop over the facet neighbors of one seed, propagating the abort. -/
def nodeLoop (docs : List ProductDoc) (seedId : String) :
    List String → List ProductDoc → List ProductDoc × Bool
  | [], hits => (hits, false)
  | node :: rest, hits =>
    match sibLoop docs seedId (nodeProducts docs node) hits with
    | (h, true) => (h, true)
    | (h, false) => nodeLoop docs seedId rest h

/-- Loop over the top three seeds; each seed's traversal sits in a
try/except whose bare except swallows the TypeError, keeping whatever state
the set had. -/
def seedLoop (docs : List ProductDoc) :
    List ProductDoc → List ProductDoc → List ProductDoc
  | [], hits => hits
  | seed :: rest, hits =>
    seedLoop docs rest (nodeLoop docs seed.doc_id (facetNodes seed) hits).1

/-- The graph_hits set after the expansion step of search. -/
def graphHits (docs : List ProductDoc) (combined : List ProductDoc) : List ProductDoc :=
  seedLoop docs (combined.take 3) []

/-- The final dedup loop of search: first occurrence of each id wins. -/
def dedupLoop : List ProductDoc → List ProductDoc → List String →
    List ProductDoc × List String
  | [], acc, seen => (acc, seen)
  | d :: rest, acc, seen =>
    if seen.contains d.doc_id then dedupLoop rest acc seen
    else dedupLoop rest (acc ++ [d]) (seen ++ [d.doc_id])

/-- The Daraz hit list of search. -/
def darazHits (docs : List ProductDoc) (scoresD : List ℚ) (total_k : ℕ) : List ProductDoc :=
  queryBm25 (darazDocs docs) scoresD (total_k / 2)

/-- The StarTech hit list of search. -/
def startechHits (docs : List ProductDoc) (scoresS : List ℚ) (total_k : ℕ) : List ProductDoc :=
  queryBm25 (startechDocs docs) scoresS (total_k / 2)

/-- GraphRAGIndex.search of app_graphrag_chat.py: interleave the two hit
lists, attempt graph expansion into a set of ProductDoc, then emit the
deduplicated interleaved hits followed by up to five deduplicated graph
hits. -/
def search (docs : List ProductDoc) (scoresD scoresS : List ℚ) (total_k : ℕ) :
    List ProductDoc :=
  let combined := Util.rrInterleave (darazHits docs scoresD total_k)
    (startechHits docs scoresS total_k)
  let gh := graphHits docs combined
  let r1 := dedupLoop combined [] []
  (dedupLoop (gh.take 5) r1.1 r1.2).1

/-- What the claim says search amounts to: the deduplicated round-robin
interleaving of the two per-source hit lists, nothing more. -/
def interleaveDedup (docs : List ProductDoc) (scoresD scoresS : List ℚ)
    (total_k : ℕ) : List ProductDoc :=
  (dedupLoop (Util.rrInterleave (darazHits docs scoresD total_k)
    (startechHits docs scoresS total_k)) [] []).1

end AppGraphragChat

/-
Concrete corpora and library outputs used to evaluate the engines.  Score
arrays stand for BM25Okapi.get_scores; rank_bm25 assigns exactly 0 to a
document sharing no token with the query and a positive score to a
document containing a token that is rare in the corpus, which the chosen
arrays respect for the described corpora.
-/

/-- Eight graphrag3 records sharing the brand samsung; only the first
contains the query token zeta in its indexed text. -/
def c3docs : List Graphrag3.ProductDoc :=
  [⟨"d0", "zeta tab", "StarTech", "general", "samsung", 0, "", "", 0⟩,
   ⟨"d1", "alpha one", "StarTech", "general", "samsung", 0, "", "", 0⟩,
   ⟨"d2", "alpha two", "StarTech", "general", "samsung", 0, "", "", 0⟩,
   ⟨"d3", "alpha three", "Daraz", "general", "samsung", 0, "", "", 0⟩,
   ⟨"d4", "alpha four", "Daraz", "general", "samsung", 0, "", "", 0⟩,
   ⟨"d5", "alpha five", "Daraz", "general", "samsung", 0, "", "", 0⟩,
   ⟨"d6", "alpha six", "Daraz", "general", "samsung", 0, "", "", 0⟩,
   ⟨"d7", "alpha seven", "Daraz", "general", "samsung", 0, "", "", 0⟩]

/-- BM25 scores for the query zeta over c3docs: only d0 matches. -/
def c3scores : List String → List ℚ := fun _ => [1, 0, 0, 0, 0, 0, 0, 0]

/-- Six graphrag_final records, five from Daraz and one from StarTech,
with sentinel brand and category so that graph expansion is inert. -/
def c4docs : List GraphragFinal.ProductDoc :=
  [⟨"a0", "t0", "Daraz", "general", "generic", 0, "", ""⟩,
   ⟨"a1", "t1", "Daraz", "general", "generic", 0, "", ""⟩,
   ⟨"a2", "t2", "Daraz", "general", "generic", 0, "", ""⟩,
   ⟨"a3", "t3", "Daraz", "general", "generic", 0, "", ""⟩,
   ⟨"a4", "t4", "Daraz", "general", "generic", 0, "", ""⟩,
   ⟨"b0", "u0", "StarTech", "general", "generic", 0, "", ""⟩]

/-- BM25 scores over the Daraz partition of c4docs: all five match. -/
def c4scoresD : List ℚ := [5, 4, 3, 2, 1]

/-- BM25 scores over the StarTech partition of c4docs. -/
def c4scoresS : List ℚ := [1]

/-- Three graphrag_final records sharing the brand acme: one Daraz hit,
one StarTech hit, and one Daraz record the query does not match, which
graph expansion will inject. -/
def c5docs : List GraphragFinal.ProductDoc :=
  [⟨"x1", "t", "Daraz", "general", "acme", 0, "", ""⟩,
   ⟨"x2", "t2", "Daraz", "general", "acme", 0, "", ""⟩,
   ⟨"y1", "u", "StarTech", "general", "acme", 0, "", ""⟩]

/-- C1: the spec requires every price parser to turn a two-price string such
as "13,500৳15,000৳" into a single plausible price (13500) under one of two
policies (first value above the threshold 100, or minimum of all values).
app_chat_rag2.parse_price (first-above-threshold) and
app_graph_rag._parse_price_value (minimum) both return 13500, but
graphrag_final.parse_price concatenates all digit groups and returns the
merged number 1350015000 — the exact failure the spec rules out. -/
theorem c1_price_parsing_eval :
    GraphragFinal.parse_price "13,500৳15,000৳" = 1350015000 ∧
    AppChatRag2.parse_price "13,500৳15,000৳" = 13500 ∧
    AppGraphRag.parse_price_value "13,500৳15,000৳" = some 13500 := by
  refine ⟨?_, ?_, ?_⟩ <;> decide

theorem qadd_eq (a b : ℚ) : Util.qadd a b = a + b := by
  have h1 : ((a.den : ℤ)) ≠ 0 := Int.natCast_ne_zero_iff_pos.mpr a.pos
  have h2 : ((b.den : ℤ)) ≠ 0 := Int.natCast_ne_zero_iff_pos.mpr b.pos
  rw [Util.qadd, Rat.mkRat_eq_divInt]
  push_cast
  rw [← Rat.divInt_add_divInt _ _ h1 h2, Rat.num_divInt_den, Rat.num_divInt_den]

theorem qsub_eq (a b : ℚ) : Util.qsub a b = a - b := by
  have h1 : ((a.den : ℤ)) ≠ 0 := Int.natCast_ne_zero_iff_pos.mpr a.pos
  have h2 : ((b.den : ℤ)) ≠ 0 := Int.natCast_ne_zero_iff_pos.mpr b.pos
  rw [Util.qsub, Rat.mkRat_eq_divInt]
  push_cast
  rw [← Rat.divInt_sub_divInt _ _ h1 h2, Rat.num_divInt_den, Rat.num_divInt_den]

theorem qmul_eq (a b : ℚ) : Util.qmul a b = a * b := by
  rw [Util.qmul, Rat.mkRat_eq_divInt]
  push_cast
  rw [← Rat.divInt_mul_divInt', Rat.num_divInt_den, Rat.num_divInt_den]

theorem qdiv_eq (a b : ℚ) : Util.qdiv a b = a / b := by
  rw [Util.qdiv]
  exact (Rat.div_def' a b).symm

theorem lowerChar_cases (c : Char) :
    Util.lowerChar c = c ∨ Util.lowerChar c ∈ Util.lowerAlphabet := by
  unfold Util.lowerChar
  split
  all_goals first
    | exact Or.inl rfl
    | (right; decide)

theorem lowerChar_fixes_lower : ∀ d ∈ Util.lowerAlphabet, Util.lowerChar d = d := by
  decide

theorem lowerChar_idem (c : Char) :
    Util.lowerChar (Util.lowerChar c) = Util.lowerChar c := by
  rcases lowerChar_cases c with h | h
  · rw [h]; exact h
  · exact lowerChar_fixes_lower _ h

theorem pyLower_idem (l : List Char) : Util.pyLower (Util.pyLower l) = Util.pyLower l := by
  simp only [Util.pyLower, List.map_map]
  exact List.map_congr_left (fun c _ => lowerChar_idem c)

/-- Hyphen replacement commutes past a later hyphen replacement composed
with lowercasing: the elementwise fact behind hyphen-insensitivity of the
graphrag3 tokenizer. -/
theorem replChar_lower_replChar (c : Char) :
    (if Util.lowerChar (if c = '-' then ' ' else c) = '-' then ' '
     else Util.lowerChar (if c = '-' then ' ' else c)) =
    (if Util.lowerChar c = '-' then ' ' else Util.lowerChar c) := by
  by_cases h : c = '-'
  · subst h; decide
  · simp only [if_neg h]

/-- C8 counterexample: the claim says the graphrag_final tokenizer turns
RTX-4060 into the two tokens rtx and 4060; in fact it keeps the hyphen and
yields the single token rtx-4060 (its docstring even advertises
"Preserves: i7-13700K, RTX-4090"). -/
theorem c8_tokenizer_counterexample :
    GraphragFinal.SmartTokenizer.tokenize "RTX-4060" = ["rtx-4060"] ∧
    GraphragFinal.SmartTokenizer.tokenize "RTX-4060" ≠ ["rtx", "4060"] := by
  constructor <;> decide

/-- C8 amended: the graphrag3 tokenizer is hyphen- and case-insensitive —
RTX-4060 becomes the tokens rtx and 4060, and tokenization is invariant
under rewriting hyphens to spaces and under lowercasing the input — while
the graphrag_final tokenizer is only case-insensitive and keeps intra-word
hyphens (rtx-4060 stays one token there). -/
theorem c8_tokenizer_amended :
    Graphrag3.SmartTokenizer.tokenize "RTX-4060" = ["rtx", "4060"] ∧
    (∀ s : String,
      Graphrag3.SmartTokenizer.tokenize (Util.pyReplaceHyphen s) =
        Graphrag3.SmartTokenizer.tokenize s) ∧
    (∀ s : String,
      Graphrag3.SmartTokenizer.tokenize (Util.pyLowerStr s) =
        Graphrag3.SmartTokenizer.tokenize s) ∧
    (∀ s : String,
      GraphragFinal.SmartTokenizer.tokenize (Util.pyLowerStr s) =
        GraphragFinal.SmartTokenizer.tokenize s) ∧
    GraphragFinal.SmartTokenizer.tokenize "RTX-4060" = ["rtx-4060"] := by
  refine ⟨by decide, ?_, ?_, ?_, by decide⟩
  · intro s
    show (Util.runsP Util.isAlnumLower none _).map _ = (Util.runsP Util.isAlnumLower none _).map _
    congr 1
    show Util.runsP _ _ ((Util.pyLower ((Util.pyReplaceHyphen s).data)).map _) = _
    congr 1
    show ((s.data.map _).map Util.lowerChar).map _ = (s.data.map Util.lowerChar).map _
    simp only [List.map_map]
    exact List.map_congr_left (fun c _ => replChar_lower_replChar c)
  · intro s
    show (Util.runsP Util.isAlnumLower none _).map _ = (Util.runsP Util.isAlnumLower none _).map _
    congr 1
    show Util.runsP _ _ ((Util.pyLower ((Util.pyLowerStr s).data)).map _) = _
    congr 2
    exact pyLower_idem s.data
  · intro s
    show (GraphragFinal.hyphScan none _).map _ = (GraphragFinal.hyphScan none _).map _
    congr 2
    exact pyLower_idem s.data

/-- C9 counterexample: the claim says extract_attributes on the title
Samsung Galaxy S21 8GB with category smartphones returns the facet map
with Brand samsung (lowercase); both cited implementations return the
brand in the canonical capitalization of their brand lists, Samsung. -/
theorem c9_infer_counterexample :
    AppGraphRag.extract_attributes "Samsung Galaxy S21 8GB" "smartphones" ≠
      [("Brand", "samsung"), ("RAM", "8GB")] ∧
    GraphRagPy.extract_attributes "Samsung Galaxy S21 8GB" "smartphones" ≠
      [("Brand", "samsung"), ("RAM", "8GB")] := by
  constructor <;> decide

/-- C9 amended: extract_attributes("Samsung Galaxy S21 8GB", "smartphones")
returns exactly the facet map Brand ↦ Samsung (canonical capitalization of
the source's brand list), RAM ↦ 8GB, in both cited implementations; the
functions are pure, so identical inputs always give identical output. -/
theorem c9_infer_eval :
    AppGraphRag.extract_attributes "Samsung Galaxy S21 8GB" "smartphones" =
      [("Brand", "Samsung"), ("RAM", "8GB")] ∧
    GraphRagPy.extract_attributes "Samsung Galaxy S21 8GB" "smartphones" =
      [("Brand", "Samsung"), ("RAM", "8GB")] := by
  constructor <;> decide

theorem chat_sibLoop_fst (docs : List AppGraphragChat.ProductDoc) (seedId : String) :
    ∀ (l : List String) (hits : List AppGraphragChat.ProductDoc),
      (AppGraphragChat.sibLoop docs seedId l hits).1 = hits := by
  intro l
  induction l with
  | nil => intro hits; rfl
  | cons sib rest ih =>
    intro hits
    simp only [AppGraphragChat.sibLoop, AppGraphragChat.addDoc,
      AppGraphragChat.productDocHashable, Bool.false_eq_true, if_false]
    split
    · rfl
    · exact ih hits

theorem chat_nodeLoop_fst (docs : List AppGraphragChat.ProductDoc) (seedId : String) :
    ∀ (l : List String) (hits : List AppGraphragChat.ProductDoc),
      (AppGraphragChat.nodeLoop docs seedId l hits).1 = hits := by
  intro l
  induction l with
  | nil => intro hits; rfl
  | cons node rest ih =>
    intro hits
    have hsib := chat_sibLoop_fst docs seedId (AppGraphragChat.nodeProducts docs node) hits
    simp only [AppGraphragChat.nodeLoop]
    rcases hm : AppGraphragChat.sibLoop docs seedId
      (AppGraphragChat.nodeProducts docs node) hits with ⟨h, b⟩
    rw [hm] at hsib
    simp only at hsib
    cases b
    · simpa [hsib] using ih h
    · simpa using hsib

theorem chat_seedLoop_id (docs : List AppGraphragChat.ProductDoc) :
    ∀ (seeds : List AppGraphragChat.ProductDoc) (hits : List AppGraphragChat.ProductDoc),
      AppGraphragChat.seedLoop docs seeds hits = hits := by
  intro seeds
  induction seeds with
  | nil => intro hits; rfl
  | cons seed rest ih =>
    intro hits
    simp only [AppGraphragChat.seedLoop]
    rw [chat_nodeLoop_fst]
    exact ih hits

theorem chat_graphHits_empty (docs : List AppGraphragChat.ProductDoc)
    (combined : List AppGraphragChat.ProductDoc) :
    AppGraphragChat.graphHits docs combined = [] :=
  chat_seedLoop_id docs (combined.take 3) []

/-- C10: in app_graphrag_chat.py the graph expansion never contributes a
result: ProductDoc is a non-frozen dataclass with generated equality, so
Python makes it unhashable and graph_hits.add raises TypeError at the
first sibling; the bare except swallows it, graph_hits stays empty, and
search returns exactly the deduplicated round-robin interleaving of the
two per-source hit lists, for every corpus, score assignment and total_k. -/
theorem c10_search_is_interleave_dedup
    (docs : List AppGraphragChat.ProductDoc) (scoresD scoresS : List ℚ) (total_k : ℕ) :
    AppGraphragChat.search docs scoresD scoresS total_k =
      AppGraphragChat.interleaveDedup docs scoresD scoresS total_k := by
  unfold AppGraphragChat.search AppGraphragChat.interleaveDedup
  simp only [chat_graphHits_empty]
  rfl

/-- C6: building from zero records.  graphrag_final guards its index build
(_build_bm25 returns None on an empty list) and its search then answers
every query, for every score assignment, with the empty list.  graphrag3
has no such guard: _build_bm25 hands the empty corpus to BM25Okapi, whose
initialization divides by the corpus size and raises ZeroDivisionError, so
the engine build crashes instead of degrading. -/
theorem c6_empty_build_behavior :
    Graphrag3.initEngine [] = none ∧
    (∀ (scoresD scoresS : List ℚ) (total_k : ℕ),
      GraphragFinal.search [] scoresD scoresS total_k = []) := by
  constructor
  · rfl
  · intro sD sS k
    rfl

/-- C2: behaviour of the price filters on unknown (zero / None) prices.
In app_chat_rag2's hard-filter stage a zero-price record passes any
nonnegative max-price filter on its own, is excluded exactly by an
explicit positive min-price filter, and a known price above a positive
max-price filter is excluded.  In app_graph_rag's graph_rag_search an
unknown or zero price is never rejected by the price check at all, and a
known nonzero price above a positive max-price constraint is rejected. -/
theorem c2_price_filter_behavior :
    (∀ (f : AppChatRag2.Filters) (p : AppChatRag2.ProductDoc) (x : ℚ),
      p.price_value = 0 → f.max_price = some x → 0 ≤ x → f.min_price = none →
      AppChatRag2.pricePass f p = true) ∧
    (∀ (f : AppChatRag2.Filters) (p : AppChatRag2.ProductDoc) (m : ℚ),
      p.price_value = 0 → f.min_price = some m → 0 < m →
      AppChatRag2.pricePass f p = false) ∧
    (∀ (f : AppChatRag2.Filters) (p : AppChatRag2.ProductDoc) (x : ℚ),
      f.max_price = some x → 0 < x → x < p.price_value →
      AppChatRag2.pricePass f p = false) ∧
    (∀ (maxPrice pv : Option ℚ), pv = none ∨ pv = some 0 →
      AppGraphRag.priceValid maxPrice pv = true) ∧
    (∀ (x v : ℚ), 0 < x → v ≠ 0 → x < v →
      AppGraphRag.priceValid (some x) (some v) = false) := by
  refine ⟨?_, ?_, ?_, ?_, ?_⟩
  · intro f p x hp hmax hx hmin
    simp only [AppChatRag2.pricePass, AppChatRag2.truthyQ, hp, hmax, hmin,
      Option.getD_some, Bool.and_eq_true, Bool.not_eq_true']
    have hnl : ¬ x < (0 : ℚ) := not_lt.mpr hx
    simp [hnl]
  · intro f p m hp hmin hm
    simp only [AppChatRag2.pricePass, AppChatRag2.truthyQ, hp, hmin, Option.getD_some]
    have h1 : (0 : ℚ) < m := hm
    have h2 : m ≠ 0 := ne_of_gt hm
    simp [h1, h2]
  · intro f p x hmax hx hlt
    simp only [AppChatRag2.pricePass, AppChatRag2.truthyQ, hmax, Option.getD_some]
    have h2 : x ≠ 0 := ne_of_gt hx
    simp [h2, hlt]
  · intro maxPrice pv hpv
    rcases hpv with h | h <;> subst h <;>
      simp [AppGraphRag.priceValid, AppGraphRag.truthyQ]
  · intro x v hx hv hlt
    simp [AppGraphRag.priceValid, AppGraphRag.truthyQ, ne_of_gt hx, hv, hlt]

theorem c2_price_filter_witness :
    AppChatRag2.pricePass ⟨some 100, none, none⟩ ⟨"p0", "t", "s", "c", 0, "", ""⟩ = true ∧
    AppChatRag2.pricePass ⟨none, some 50, none⟩ ⟨"p0", "t", "s", "c", 0, "", ""⟩ = false ∧
    AppChatRag2.pricePass ⟨some 100, none, none⟩ ⟨"p1", "t", "s", "c", 200, "", ""⟩ = false ∧
    AppGraphRag.priceValid (some 100) none = true ∧
    AppGraphRag.priceValid (some 100) (some 200) = false :=
  ⟨c2_price_filter_behavior.1 _ _ 100 rfl rfl (by norm_num) rfl,
   c2_price_filter_behavior.2.1 _ _ 50 rfl rfl (by norm_num),
   c2_price_filter_behavior.2.2.1 _ ⟨"p1", "t", "s", "c", 200, "", ""⟩ 100 rfl
     (by norm_num) (by norm_num),
   c2_price_filter_behavior.2.2.2.1 _ none (Or.inl rfl),
   c2_price_filter_behavior.2.2.2.2 100 200 (by norm_num) (by norm_num) (by norm_num)⟩

/-- C3: in graphrag3.py the number of graph-injected siblings in a result
is not capped at GRAPH_EXPANSION_LIMIT = 5 (the constant is declared in
Config and never read): on an eight-record corpus sharing one brand where
the query matches a single record, search returns that record plus seven
injected siblings — all seven absent from the BM25 candidate list. -/
theorem c3_uncapped_expansion_eval :
    ((Graphrag3.search c3docs c3scores "zeta").filter
      (fun d => !(Graphrag3.bm25CandidateIds c3docs (c3scores ["zeta"])).contains d.doc_id)).length
      = 7 ∧
    Graphrag3.bm25CandidateIds c3docs (c3scores ["zeta"]) = ["d0"] ∧
    Graphrag3.GRAPH_EXPANSION_LIMIT < 7 := by
  refine ⟨?_, ?_, ?_⟩ <;> decide

/-- C4 counterexample: the interleaving bound fails as universally stated.
On a query matching five Daraz records and one StarTech record (both
partitions yield hits), the first 2*3 = 6 results of graphrag_final's
search contain five Daraz records, exceeding N + 1 = 4: once the shorter
list is exhausted the loop appends only the longer list. -/
theorem c4_balance_counterexample :
    ((GraphragFinal.search c4docs c4scoresD c4scoresS 20).take (2 * 3)).countP
      (fun d => d.source = "Daraz") = 5 ∧
    (GraphragFinal.darazHits c4docs c4scoresD 20).length = 5 ∧
    (GraphragFinal.startechHits c4docs c4scoresS 20).length = 1 ∧
    3 + 1 < 5 := by
  refine ⟨?_, ?_, ?_, ?_⟩ <;> decide

theorem insertLe_perm (le : α → α → Bool) (x : α) (l : List α) :
    (Util.insertLe le x l).Perm (x :: l) := by
  induction l with
  | nil => exact List.Perm.refl _
  | cons y ys ih =>
    simp only [Util.insertLe]
    split
    · exact List.Perm.refl _
    · exact (List.Perm.cons y ih).trans (List.Perm.swap x y ys)

theorem sortLe_perm (le : α → α → Bool) (l : List α) : (Util.sortLe le l).Perm l := by
  induction l with
  | nil => exact List.Perm.refl _
  | cons x xs ih => exact (insertLe_perm le x _).trans (List.Perm.cons x ih)

theorem sortLe_length (le : α → α → Bool) (l : List α) :
    (Util.sortLe le l).length = l.length :=
  (sortLe_perm le l).length_eq

theorem rr_perm (d s : List α) : (Util.rrInterleave d s).Perm (d ++ s) := by
  induction d generalizing s with
  | nil => simp [Util.rrInterleave]
  | cons x d ih =>
    cases s with
    | nil => simp [Util.rrInterleave]
    | cons y s =>
      show (x :: y :: Util.rrInterleave d s).Perm (x :: d ++ y :: s)
      refine List.Perm.cons x ?_
      exact (List.Perm.cons y (ih s)).trans List.perm_middle.symm

theorem rr_length (d s : List α) :
    (Util.rrInterleave d s).length = d.length + s.length := by
  have h := (rr_perm d s).length_eq
  simpa using h

theorem rr_getD (dflt : α) :
    ∀ (d s : List α) (i : ℕ), i < min d.length s.length →
      (Util.rrInterleave d s).getD (2 * i) dflt = d.getD i dflt ∧
      (Util.rrInterleave d s).getD (2 * i + 1) dflt = s.getD i dflt := by
  intro d
  induction d with
  | nil => intro s i h; simp at h
  | cons x d ih =>
    intro s i h
    cases s with
    | nil => simp at h
    | cons y s =>
      cases i with
      | zero => exact ⟨rfl, rfl⟩
      | succ j =>
        have hj : j < min d.length s.length := by
          simp only [List.length_cons, Nat.succ_min_succ] at h
          omega
        have hr := ih s j hj
        have e1 : 2 * (j + 1) = 2 * j + 1 + 1 := by omega
        have e2 : 2 * (j + 1) + 1 = (2 * j + 1) + 1 + 1 := by omega
        constructor
        · rw [e1]
          show (Util.rrInterleave d s).getD (2 * j) dflt = d.getD j dflt
          exact hr.1
        · rw [e2]
          show (Util.rrInterleave d s).getD (2 * j + 1) dflt = s.getD j dflt
          exact hr.2

theorem countP_take_rr (p : α → Bool) :
    ∀ (d : List α) (N : ℕ) (s : List α), (∀ x ∈ d, p x = true) → (∀ x ∈ s, p x = false) →
      N ≤ min d.length s.length + 1 →
      ((Util.rrInterleave d s).take (2 * N)).countP p ≤ N + 1 ∧
      ((Util.rrInterleave d s).take (2 * N)).countP (fun x => !(p x)) ≤ N + 1 := by
  intro d
  induction d with
  | nil =>
    intro N s _ hs hN
    simp only [List.length_nil] at hN
    have hN1 : N ≤ 1 := by omega
    constructor
    · have : ((Util.rrInterleave [] s).take (2 * N)).countP p = 0 := by
        refine List.countP_eq_zero.mpr ?_
        intro x hx
        have hxs : x ∈ s := by
          have := List.mem_of_mem_take hx
          simpa [Util.rrInterleave] using this
        simp [hs x hxs]
      omega
    · have h1 : ((Util.rrInterleave [] s).take (2 * N)).countP (fun x => !(p x)) ≤
          ((Util.rrInterleave [] s).take (2 * N)).length := List.countP_le_length _
      have h2 : ((Util.rrInterleave [] s).take (2 * N)).length ≤ 2 * N :=
        List.length_take_le _ _
      omega
  | cons x d ih =>
    intro N s hd hs hN
    cases s with
    | nil =>
      simp only [List.length_nil] at hN
      have hN1 : N ≤ 1 := by omega
      constructor
      · have h1 : ((Util.rrInterleave (x :: d) []).take (2 * N)).countP p ≤
            ((Util.rrInterleave (x :: d) []).take (2 * N)).length := List.countP_le_length _
        have h2 : ((Util.rrInterleave (x :: d) []).take (2 * N)).length ≤ 2 * N :=
          List.length_take_le _ _
        omega
      · have : ((Util.rrInterleave (x :: d) []).take (2 * N)).countP (fun y => !(p y)) = 0 := by
          refine List.countP_eq_zero.mpr ?_
          intro y hy
          have hyd : y ∈ x :: d := by
            have := List.mem_of_mem_take hy
            simpa [Util.rrInterleave] using this
          simp [hd y hyd]
        omega
    | cons y s =>
      cases N with
      | zero => simp
      | succ M =>
        have hM : M ≤ min d.length s.length + 1 := by
          simp only [List.length_cons, Nat.succ_min_succ] at hN
          omega
        have hd' : ∀ z ∈ d, p z = true := fun z hz => hd z (List.mem_cons_of_mem x hz)
        have hs' : ∀ z ∈ s, p z = false := fun z hz => hs z (List.mem_cons_of_mem y hz)
        have hr := ih M s hd' hs' hM
        have e : 2 * (M + 1) = (2 * M) + 1 + 1 := by omega
        have hx : p x = true := hd x (List.mem_cons_self x d)
        have hy : p y = false := hs y (List.mem_cons_self y s)
        rw [e]
        show ((x :: y :: Util.rrInterleave d s).take ((2 * M) + 1 + 1)).countP p ≤ M + 1 + 1 ∧
          ((x :: y :: Util.rrInterleave d s).take ((2 * M) + 1 + 1)).countP (fun z => !(p z)) ≤
            M + 1 + 1
        have e1 : ((x :: y :: Util.rrInterleave d s).take ((2 * M) + 1 + 1)).countP p =
            ((Util.rrInterleave d s).take (2 * M)).countP p + 1 := by
          simp [List.take_succ_cons, List.countP_cons, hx, hy]
        have e2 : ((x :: y :: Util.rrInterleave d s).take ((2 * M) + 1 + 1)).countP
            (fun z => !(p z)) =
            ((Util.rrInterleave d s).take (2 * M)).countP (fun z => !(p z)) + 1 := by
          simp [List.take_succ_cons, List.countP_cons, hx, hy]
        rw [e1, e2]
        have h1 := hr.1
        have h2 := hr.2
        omega

theorem countP_take_rr_append (p : α → Bool) (d s t : List α) (N : ℕ)
    (hd : ∀ x ∈ d, p x = true) (hs : ∀ x ∈ s, p x = false)
    (hN : N ≤ min d.length s.length + 1) :
    ((Util.rrInterleave d s ++ t).take (2 * N)).countP p ≤ N + 1 ∧
    ((Util.rrInterleave d s ++ t).take (2 * N)).countP (fun x => !(p x)) ≤ N + 1 := by
  by_cases h2 : 2 * N ≤ (Util.rrInterleave d s).length
  · rw [List.take_append_of_le_length h2]
    exact countP_take_rr p d N s hd hs hN
  · push_neg at h2
    have hlen := rr_length d s
    have hcp : (Util.rrInterleave d s).countP p = d.length := by
      rw [(rr_perm d s).countP_eq p, List.countP_append,
        List.countP_eq_length.mpr hd,
        List.countP_eq_zero.mpr (fun a ha => by simp [hs a ha])]
      omega
    have hcq : (Util.rrInterleave d s).countP (fun x => !(p x)) = s.length := by
      rw [(rr_perm d s).countP_eq _, List.countP_append,
        List.countP_eq_zero.mpr (fun a ha => by simp [hd a ha]),
        List.countP_eq_length.mpr (fun a ha => by simp [hs a ha])]
      omega
    have hminl : min d.length s.length ≤ d.length := Nat.min_le_left _ _
    have hminr : min d.length s.length ≤ s.length := Nat.min_le_right _ _
    constructor
    · rw [List.take_append_eq_append_take, List.take_of_length_le (le_of_lt h2),
        List.countP_append, hcp]
      have hc := List.countP_le_length (l := t.take (2 * N - (Util.rrInterleave d s).length))
        (p := p)
      have hl := List.length_take_le (2 * N - (Util.rrInterleave d s).length) t
      omega
    · rw [List.take_append_eq_append_take, List.take_of_length_le (le_of_lt h2),
        List.countP_append, hcq]
      have hc := List.countP_le_length (l := t.take (2 * N - (Util.rrInterleave d s).length))
        (p := fun x => !(p x))
      have hl := List.length_take_le (2 * N - (Util.rrInterleave d s).length) t
      omega

/-- C4 amended: the hit lists are interleaved strictly round-robin
(position 2i holds the i-th Daraz hit and position 2i+1 the i-th StarTech
hit while both lists last), and for every query yielding hits in both
partitions the first 2*N results of search contain at most N+1 records
from either source provided each partition yields at least N-1 hits
(N ≤ min of the two hit counts plus one); with fewer hits in one
partition the other source can exceed N+1, as the counterexample shows. -/
theorem c4_interleave_balance
    (docs : List GraphragFinal.ProductDoc) (scoresD scoresS : List ℚ) (total_k N : ℕ)
    (hd : ∀ x ∈ GraphragFinal.darazHits docs scoresD total_k,
      Util.hasSubStr "daraz" (Util.pyLowerStr x.source) = true)
    (hs : ∀ x ∈ GraphragFinal.startechHits docs scoresS total_k,
      Util.hasSubStr "daraz" (Util.pyLowerStr x.source) = false)
    (hN : N ≤ min (GraphragFinal.darazHits docs scoresD total_k).length
      (GraphragFinal.startechHits docs scoresS total_k).length + 1) :
    (∀ i < min (GraphragFinal.darazHits docs scoresD total_k).length
        (GraphragFinal.startechHits docs scoresS total_k).length,
      (Util.rrInterleave (GraphragFinal.darazHits docs scoresD total_k)
        (GraphragFinal.startechHits docs scoresS total_k)).getD (2 * i)
          GraphragFinal.dummyDoc =
        (GraphragFinal.darazHits docs scoresD total_k).getD i GraphragFinal.dummyDoc ∧
      (Util.rrInterleave (GraphragFinal.darazHits docs scoresD total_k)
        (GraphragFinal.startechHits docs scoresS total_k)).getD (2 * i + 1)
          GraphragFinal.dummyDoc =
        (GraphragFinal.startechHits docs scoresS total_k).getD i GraphragFinal.dummyDoc) ∧
    ((GraphragFinal.search docs scoresD scoresS total_k).take (2 * N)).countP
      (fun x => Util.hasSubStr "daraz" (Util.pyLowerStr x.source)) ≤ N + 1 ∧
    ((GraphragFinal.search docs scoresD scoresS total_k).take (2 * N)).countP
      (fun x => !(Util.hasSubStr "daraz" (Util.pyLowerStr x.source))) ≤ N + 1 := by
  have hsearch : GraphragFinal.search docs scoresD scoresS total_k =
      Util.rrInterleave (GraphragFinal.darazHits docs scoresD total_k)
        (GraphragFinal.startechHits docs scoresS total_k) ++
      (if (Util.rrInterleave (GraphragFinal.darazHits docs scoresD total_k)
          (GraphragFinal.startechHits docs scoresS total_k)).isEmpty then []
        else (GraphragFinal.graphHits docs
          (Util.rrInterleave (GraphragFinal.darazHits docs scoresD total_k)
            (GraphragFinal.startechHits docs scoresS total_k))).take 5) := by
    show (if _ then _ else _) = _
    by_cases hc : (Util.rrInterleave (GraphragFinal.darazHits docs scoresD total_k)
        (GraphragFinal.startechHits docs scoresS total_k)).isEmpty
    · rw [if_pos hc, if_pos hc, List.append_nil]
    · rw [if_neg hc, if_neg hc]
  have hcount := countP_take_rr_append
    (fun x => Util.hasSubStr "daraz" (Util.pyLowerStr x.source))
    (GraphragFinal.darazHits docs scoresD total_k)
    (GraphragFinal.startechHits docs scoresS total_k)
    (if (Util.rrInterleave (GraphragFinal.darazHits docs scoresD total_k)
        (GraphragFinal.startechHits docs scoresS total_k)).isEmpty then []
      else (GraphragFinal.graphHits docs
        (Util.rrInterleave (GraphragFinal.darazHits docs scoresD total_k)
          (GraphragFinal.startechHits docs scoresS total_k))).take 5)
    N hd hs hN
  refine ⟨fun i hi => rr_getD GraphragFinal.dummyDoc _ _ i hi, ?_, ?_⟩
  · rw [hsearch]
    exact hcount.1
  · rw [hsearch]
    exact hcount.2

theorem c4_interleave_balance_witness :
    ((∀ x ∈ GraphragFinal.darazHits c4docs c4scoresD 20,
        Util.hasSubStr "daraz" (Util.pyLowerStr x.source) = true) ∧
      (∀ x ∈ GraphragFinal.startechHits c4docs c4scoresS 20,
        Util.hasSubStr "daraz" (Util.pyLowerStr x.source) = false) ∧
      2 ≤ min (GraphragFinal.darazHits c4docs c4scoresD 20).length
        (GraphragFinal.startechHits c4docs c4scoresS 20).length + 1) ∧
    ((GraphragFinal.search c4docs c4scoresD c4scoresS 20).take (2 * 2)).countP
      (fun x => Util.hasSubStr "daraz" (Util.pyLowerStr x.source)) ≤ 2 + 1 :=
  ⟨⟨by decide, by decide, by decide⟩,
   (c4_interleave_balance c4docs c4scoresD c4scoresS 20 2 (by decide) (by decide)
     (by decide)).2.1⟩

/-- C5 counterexample: graphrag_final's search does not truncate to topK.
With total_k = 2 the interleaved list already has two hits, and graph
expansion appends a brand sibling, so search returns three records. -/
theorem c5_truncation_counterexample :
    (GraphragFinal.search c5docs [1, 0] [1] 2).length = 3 ∧ 2 < 3 := by
  constructor <;> decide

theorem normArr_length (arr : List ℚ) : (AppChatRag2.normArr arr).length = arr.length := by
  unfold AppChatRag2.normArr
  split <;> simp

theorem queryBm25_length_le (ds : List GraphragFinal.ProductDoc) (scores : List ℚ) (k : ℕ) :
    (GraphragFinal.queryBm25 ds scores k).length ≤ k := by
  unfold GraphragFinal.queryBm25
  split
  · simp
  · simp only [List.length_map]
    exact le_trans (List.length_filter_le _ _)
      (le_trans (List.length_take_le _ _) le_rfl)

theorem queryBm25_mem (ds : List GraphragFinal.ProductDoc) (scores : List ℚ) (k : ℕ)
    (hlen : scores.length = ds.length) :
    ∀ x ∈ GraphragFinal.queryBm25 ds scores k, x ∈ ds := by
  unfold GraphragFinal.queryBm25
  split
  · intro x hx; simp at hx
  · intro x hx
    simp only [List.mem_map] at hx
    obtain ⟨i, hi, hix⟩ := hx
    have hi2 : i ∈ (Util.sortLe (fun i j => decide (scores.getD j 0 ≤ scores.getD i 0))
        (List.range scores.length)).take k := List.mem_of_mem_filter hi
    have hi3 : i ∈ Util.sortLe (fun i j => decide (scores.getD j 0 ≤ scores.getD i 0))
        (List.range scores.length) := (List.take_sublist _ _).subset hi2
    have hi4 : i ∈ List.range scores.length := (sortLe_perm _ _).mem_iff.mp hi3
    have hi5 : i < ds.length := by
      rw [← hlen]
      exact List.mem_range.mp hi4
    rw [← hix, List.getD_eq_getElem ds GraphragFinal.dummyDoc hi5]
    exact List.getElem_mem hi5

theorem queryBm25_ids_nodup (ds : List GraphragFinal.ProductDoc) (scores : List ℚ) (k : ℕ)
    (hlen : scores.length = ds.length)
    (hnd : (ds.map (fun d => d.doc_id)).Nodup) :
    ((GraphragFinal.queryBm25 ds scores k).map (fun d => d.doc_id)).Nodup := by
  unfold GraphragFinal.queryBm25
  split
  · simp
  · rw [List.map_map]
    have hidx : ((Util.sortLe (fun i j => decide (scores.getD j 0 ≤ scores.getD i 0))
        (List.range scores.length)).take k).Nodup :=
      ((sortLe_perm _ _).nodup_iff.mpr (List.nodup_range _)).sublist (List.take_sublist _ _)
      |> fun h => h
    have hidx2 : (((Util.sortLe (fun i j => decide (scores.getD j 0 ≤ scores.getD i 0))
        (List.range scores.length)).take k).filter
        (fun i => decide ((0 : ℚ) < scores.getD i 0))).Nodup :=
      hidx.sublist (List.filter_sublist _) |> fun h => h
    refine List.Nodup.map_on ?_ hidx2
    intro i hi j hj hij
    have hmemr : ∀ m, m ∈ ((Util.sortLe (fun i j => decide (scores.getD j 0 ≤ scores.getD i 0))
        (List.range scores.length)).take k).filter
        (fun i => decide ((0 : ℚ) < scores.getD i 0)) → m < ds.length := by
      intro m hm
      have h2 : m ∈ Util.sortLe (fun i j => decide (scores.getD j 0 ≤ scores.getD i 0))
          (List.range scores.length) :=
        (List.take_sublist _ _).subset (List.mem_of_mem_filter hm)
      have h3 : m ∈ List.range scores.length := (sortLe_perm _ _).mem_iff.mp h2
      rw [← hlen]
      exact List.mem_range.mp h3
    have hi' : i < ds.length := hmemr i hi
    have hj' : j < ds.length := hmemr j hj
    simp only [Function.comp] at hij
    rw [List.getD_eq_getElem ds GraphragFinal.dummyDoc hi',
      List.getD_eq_getElem ds GraphragFinal.dummyDoc hj'] at hij
    have hi2 : i < (ds.map (fun d => d.doc_id)).length := by simpa using hi'
    have hj2 : j < (ds.map (fun d => d.doc_id)).length := by simpa using hj'
    have hthis : (ds.map (fun d => d.doc_id))[i] = (ds.map (fun d => d.doc_id))[j] := by
      simpa using hij
    exact (hnd.getElem_inj_iff).mp hthis

theorem combined_ids_nodup (docs : List GraphragFinal.ProductDoc)
    (scoresD scoresS : List ℚ) (total_k : ℕ)
    (hlenD : scoresD.length = (GraphragFinal.darazDocs docs).length)
    (hlenS : scoresS.length = (GraphragFinal.startechDocs docs).length)
    (hndF : ((GraphragFinal.darazDocs docs).map (fun d => d.doc_id) ++
      (GraphragFinal.startechDocs docs).map (fun d => d.doc_id)).Nodup) :
    ((Util.rrInterleave (GraphragFinal.darazHits docs scoresD total_k)
      (GraphragFinal.startechHits docs scoresS total_k)).map (fun d => d.doc_id)).Nodup := by
  have hndD : ((GraphragFinal.darazDocs docs).map (fun d => d.doc_id)).Nodup :=
    (List.nodup_append.mp hndF).1
  have hndS : ((GraphragFinal.startechDocs docs).map (fun d => d.doc_id)).Nodup :=
    (List.nodup_append.mp hndF).2.1
  have hdisj : ((GraphragFinal.darazDocs docs).map (fun d => d.doc_id)).Disjoint
      ((GraphragFinal.startechDocs docs).map (fun d => d.doc_id)) :=
    List.disjoint_of_nodup_append hndF
  have h1 : ((GraphragFinal.darazHits docs scoresD total_k).map (fun d => d.doc_id)).Nodup :=
    queryBm25_ids_nodup _ _ _ hlenD hndD
  have h2 : ((GraphragFinal.startechHits docs scoresS total_k).map (fun d => d.doc_id)).Nodup :=
    queryBm25_ids_nodup _ _ _ hlenS hndS
  have hsub1 : ((GraphragFinal.darazHits docs scoresD total_k).map (fun d => d.doc_id)) ⊆
      ((GraphragFinal.darazDocs docs).map (fun d => d.doc_id)) := by
    intro a ha
    obtain ⟨x, hx, hxa⟩ := List.mem_map.mp ha
    exact hxa ▸ List.mem_map_of_mem _ (queryBm25_mem _ _ _ hlenD x hx)
  have hsub2 : ((GraphragFinal.startechHits docs scoresS total_k).map (fun d => d.doc_id)) ⊆
      ((GraphragFinal.startechDocs docs).map (fun d => d.doc_id)) := by
    intro a ha
    obtain ⟨x, hx, hxa⟩ := List.mem_map.mp ha
    exact hxa ▸ List.mem_map_of_mem _ (queryBm25_mem _ _ _ hlenS x hx)
  have hdisj2 : ((GraphragFinal.darazHits docs scoresD total_k).map
      (fun d => d.doc_id)).Disjoint
      ((GraphragFinal.startechHits docs scoresS total_k).map (fun d => d.doc_id)) :=
    fun _ ha hb => hdisj (hsub1 ha) (hsub2 hb)
  have hperm := (rr_perm (GraphragFinal.darazHits docs scoresD total_k)
    (GraphragFinal.startechHits docs scoresS total_k)).map (fun d => d.doc_id)
  refine hperm.nodup_iff.mpr ?_
  rw [List.map_append]
  exact List.Nodup.append h1 h2 hdisj2

theorem sibLoop_inv (docs : List GraphragFinal.ProductDoc) (seedId : String)
    (base : List String) :
    ∀ (sibs : List String) (hits : List GraphragFinal.ProductDoc) (seen : List String),
      seen = base ++ hits.map (fun d => d.doc_id) → seen.Nodup →
      (GraphragFinal.sibLoop docs seedId sibs hits seen).2 =
        base ++ (GraphragFinal.sibLoop docs seedId sibs hits seen).1.map
          (fun d => d.doc_id) ∧
      (GraphragFinal.sibLoop docs seedId sibs hits seen).2.Nodup := by
  intro sibs
  induction sibs with
  | nil => intro hits seen he hn; exact ⟨he, hn⟩
  | cons sib rest ih =>
    intro hits seen he hn
    simp only [GraphragFinal.sibLoop]
    split
    · next hcond =>
      obtain ⟨h1, h2, h3⟩ := hcond
      have hsib_not : sib ∉ seen := by simpa using h2
      have hid : ((GraphragFinal.lookupDoc docs sib).getD GraphragFinal.dummyDoc).doc_id
          = sib := by
        obtain ⟨d, hd⟩ := Option.isSome_iff_exists.mp h3
        rw [hd, Option.getD_some]
        simpa using List.find?_some hd
      have heq : seen ++ [sib] = base ++
          ((hits ++ [(GraphragFinal.lookupDoc docs sib).getD GraphragFinal.dummyDoc]).map
            (fun d => d.doc_id)) := by
        rw [List.map_append, he, List.append_assoc]
        simp [hid]
      have hnodup : (seen ++ [sib]).Nodup := by
        refine List.Nodup.append hn (List.nodup_singleton sib) ?_
        intro a ha hb
        rw [List.mem_singleton] at hb
        exact hsib_not (hb ▸ ha)
      exact ih _ _ heq hnodup
    · exact ih hits seen he hn

theorem nodeLoop_inv (docs : List GraphragFinal.ProductDoc) (seedId : String)
    (base : List String) :
    ∀ (nodes : List String) (hits : List GraphragFinal.ProductDoc) (seen : List String),
      seen = base ++ hits.map (fun d => d.doc_id) → seen.Nodup →
      (GraphragFinal.nodeLoop docs seedId nodes hits seen).2 =
        base ++ (GraphragFinal.nodeLoop docs seedId nodes hits seen).1.map
          (fun d => d.doc_id) ∧
      (GraphragFinal.nodeLoop docs seedId nodes hits seen).2.Nodup := by
  intro nodes
  induction nodes with
  | nil => intro hits seen he hn; exact ⟨he, hn⟩
  | cons node rest ih =>
    intro hits seen he hn
    simp only [GraphragFinal.nodeLoop]
    have hr := sibLoop_inv docs seedId base
      (GraphragFinal.nodeProducts docs node) hits seen he hn
    exact ih _ _ hr.1 hr.2

theorem seedLoop_inv (docs : List GraphragFinal.ProductDoc) (base : List String) :
    ∀ (seeds : List GraphragFinal.ProductDoc) (hits : List GraphragFinal.ProductDoc)
      (seen : List String),
      seen = base ++ hits.map (fun d => d.doc_id) → seen.Nodup →
      (GraphragFinal.seedLoop docs seeds hits seen).2 =
        base ++ (GraphragFinal.seedLoop docs seeds hits seen).1.map (fun d => d.doc_id) ∧
      (GraphragFinal.seedLoop docs seeds hits seen).2.Nodup := by
  intro seeds
  induction seeds with
  | nil => intro hits seen he hn; exact ⟨he, hn⟩
  | cons seed rest ih =>
    intro hits seen he hn
    simp only [GraphragFinal.seedLoop]
    have hr := nodeLoop_inv docs seed.doc_id base
      (GraphragFinal.facetNodes seed) hits seen he hn
    exact ih _ _ hr.1 hr.2

theorem graphHits_ids (docs : List GraphragFinal.ProductDoc)
    (combined : List GraphragFinal.ProductDoc)
    (hn : (combined.map (fun d => d.doc_id)).Nodup) :
    (combined.map (fun d => d.doc_id) ++
      (GraphragFinal.graphHits docs combined).map (fun d => d.doc_id)).Nodup := by
  have h := seedLoop_inv docs (combined.map (fun d => d.doc_id)) (combined.take 2) []
    (combined.map (fun d => d.doc_id)) (by simp) hn
  rw [GraphragFinal.graphHits, ← h.1]
  exact h.2

theorem searchChat_length_le (products : List AppChatRag2.ProductDoc)
    (corpusEmb : List (List ℚ)) (qEmb : List ℚ) (bm25Full : List ℚ)
    (f : AppChatRag2.Filters) (top_k : ℕ) :
    (AppChatRag2.search products corpusEmb qEmb bm25Full f top_k).length ≤ top_k := by
  simp only [AppChatRag2.search]
  split
  · simp
  · exact List.length_take_le _ _

theorem searchChat_ids_nodup (products : List AppChatRag2.ProductDoc)
    (corpusEmb : List (List ℚ)) (qEmb : List ℚ) (bm25Full : List ℚ)
    (f : AppChatRag2.Filters) (top_k : ℕ)
    (hnd : (products.map (fun p => p.doc_id)).Nodup) :
    ((AppChatRag2.search products corpusEmb qEmb bm25Full f top_k).map
      (fun r => r.doc.doc_id)).Nodup := by
  simp only [AppChatRag2.search]
  split
  · simp
  · rw [List.map_take]
    refine List.Nodup.sublist (List.take_sublist _ _) ?_
    refine ((sortLe_perm _ _).map
      (fun r : AppChatRag2.SearchResult => r.doc.doc_id)).nodup_iff.mpr ?_
    rw [List.map_map]
    have hlen : (AppChatRag2.validPairs products f).length ≤
        ((AppChatRag2.normArr ((AppChatRag2.validPairs products f).map
          (fun ip => Util.dotQ (corpusEmb.getD ip.1 []) qEmb))).zipWith
          (fun a b => Util.qadd (Util.qmul (mkRat 7 10) a) (Util.qmul (mkRat 3 10) b))
          (AppChatRag2.normArr ((AppChatRag2.validPairs products f).map
            (fun ip => bm25Full.getD ip.1 0)))).length := by
      rw [List.length_zipWith, normArr_length, normArr_length, List.length_map,
        List.length_map]
      omega
    have hzip : (((AppChatRag2.validPairs products f).zip
        ((AppChatRag2.normArr ((AppChatRag2.validPairs products f).map
          (fun ip => Util.dotQ (corpusEmb.getD ip.1 []) qEmb))).zipWith
          (fun a b => Util.qadd (Util.qmul (mkRat 7 10) a) (Util.qmul (mkRat 3 10) b))
          (AppChatRag2.normArr ((AppChatRag2.validPairs products f).map
            (fun ip => bm25Full.getD ip.1 0))))).map
        (fun pr => (AppChatRag2.SearchResult.mk pr.1.2 pr.2 "").doc.doc_id)) =
        (AppChatRag2.validPairs products f).map (fun ip => ip.2.doc_id) := by
      have := List.map_fst_zip (AppChatRag2.validPairs products f)
        ((AppChatRag2.normArr ((AppChatRag2.validPairs products f).map
          (fun ip => Util.dotQ (corpusEmb.getD ip.1 []) qEmb))).zipWith
          (fun a b => Util.qadd (Util.qmul (mkRat 7 10) a) (Util.qmul (mkRat 3 10) b))
          (AppChatRag2.normArr ((AppChatRag2.validPairs products f).map
            (fun ip => bm25Full.getD ip.1 0)))) hlen
      calc _ = (((AppChatRag2.validPairs products f).zip _).map Prod.fst).map
            (fun ip => ip.2.doc_id) := by rw [List.map_map]; rfl
        _ = (AppChatRag2.validPairs products f).map (fun ip => ip.2.doc_id) := by rw [this]
    simp only [Function.comp_def]
    rw [hzip]
    have hsub : List.Sublist ((AppChatRag2.validPairs products f).map
        (fun ip => ip.2.doc_id)) ((products.enum).map (fun ip => ip.2.doc_id)) :=
      List.Sublist.map _ (List.filter_sublist _)
    refine hsub.nodup ?_
    have : (products.enum).map (fun ip : ℕ × AppChatRag2.ProductDoc => ip.2.doc_id) =
        (products.enum.map Prod.snd).map (fun p => p.doc_id) := by
      rw [List.map_map]; rfl
    rw [this, List.enum_map_snd]
    exact hnd

theorem searchFinal_length_le (docs : List GraphragFinal.ProductDoc)
    (scoresD scoresS : List ℚ) (total_k : ℕ) :
    (GraphragFinal.search docs scoresD scoresS total_k).length ≤ total_k + 5 := by
  have hD : (GraphragFinal.darazHits docs scoresD total_k).length ≤ total_k / 2 :=
    queryBm25_length_le _ _ _
  have hS : (GraphragFinal.startechHits docs scoresS total_k).length ≤ total_k / 2 :=
    queryBm25_length_le _ _ _
  have hc := rr_length (GraphragFinal.darazHits docs scoresD total_k)
    (GraphragFinal.startechHits docs scoresS total_k)
  simp only [GraphragFinal.search]
  split
  · omega
  · rw [List.length_append]
    have ht : ((GraphragFinal.graphHits docs
        (Util.rrInterleave (GraphragFinal.darazHits docs scoresD total_k)
          (GraphragFinal.startechHits docs scoresS total_k))).take 5).length ≤ 5 :=
      List.length_take_le _ _
    omega

theorem searchFinal_ids_nodup (docs : List GraphragFinal.ProductDoc)
    (scoresD scoresS : List ℚ) (total_k : ℕ)
    (hlenD : scoresD.length = (GraphragFinal.darazDocs docs).length)
    (hlenS : scoresS.length = (GraphragFinal.startechDocs docs).length)
    (hndF : ((GraphragFinal.darazDocs docs).map (fun d => d.doc_id) ++
      (GraphragFinal.startechDocs docs).map (fun d => d.doc_id)).Nodup) :
    ((GraphragFinal.search docs scoresD scoresS total_k).map (fun d => d.doc_id)).Nodup := by
  have hcomb := combined_ids_nodup docs scoresD scoresS total_k hlenD hlenS hndF
  simp only [GraphragFinal.search]
  split
  · exact hcomb
  · rw [List.map_append, List.map_take]
    have hfull := graphHits_ids docs
      (Util.rrInterleave (GraphragFinal.darazHits docs scoresD total_k)
        (GraphragFinal.startechHits docs scoresS total_k)) hcomb
    refine List.Nodup.sublist ?_ hfull
    exact List.Sublist.append_left (List.take_sublist _ _) _

/-- C5 amended: for records whose ids are unique (the data model's
invariant) and whose sources do not straddle both partitions,
app_chat_rag2's search returns at most topK results with pairwise distinct
record ids; graphrag_final's search also returns pairwise distinct record
ids (its expansion loop drops ids already seen, first occurrence winning),
but its list is only bounded by topK + 5 — the interleaved portion is
at most topK and graph expansion appends up to five more records — rather
than truncated to topK, as the counterexample shows. -/
theorem c5_dedup_truncation
    (products : List AppChatRag2.ProductDoc) (corpusEmb : List (List ℚ)) (qEmb : List ℚ)
    (bm25Full : List ℚ) (f : AppChatRag2.Filters) (top_k : ℕ)
    (docs : List GraphragFinal.ProductDoc) (scoresD scoresS : List ℚ) (total_k : ℕ)
    (hnd2 : (products.map (fun p => p.doc_id)).Nodup)
    (hlenD : scoresD.length = (GraphragFinal.darazDocs docs).length)
    (hlenS : scoresS.length = (GraphragFinal.startechDocs docs).length)
    (hndF : ((GraphragFinal.darazDocs docs).map (fun d => d.doc_id) ++
      (GraphragFinal.startechDocs docs).map (fun d => d.doc_id)).Nodup) :
    (AppChatRag2.search products corpusEmb qEmb bm25Full f top_k).length ≤ top_k ∧
    ((AppChatRag2.search products corpusEmb qEmb bm25Full f top_k).map
      (fun r => r.doc.doc_id)).Nodup ∧
    (GraphragFinal.search docs scoresD scoresS total_k).length ≤ total_k + 5 ∧
    ((GraphragFinal.search docs scoresD scoresS total_k).map
      (fun d => d.doc_id)).Nodup :=
  ⟨searchChat_length_le products corpusEmb qEmb bm25Full f top_k,
   searchChat_ids_nodup products corpusEmb qEmb bm25Full f top_k hnd2,
   searchFinal_length_le docs scoresD scoresS total_k,
   searchFinal_ids_nodup docs scoresD scoresS total_k hlenD hlenS hndF⟩

theorem c5_dedup_truncation_witness :
    (((([⟨"p0", "t", "s", "c", 200, "", ""⟩, ⟨"p1", "u", "s", "c", 50, "", ""⟩] :
        List AppChatRag2.ProductDoc).map (fun p => p.doc_id)).Nodup) ∧
      ([1, 0] : List ℚ).length = (GraphragFinal.darazDocs c5docs).length ∧
      ([1] : List ℚ).length = (GraphragFinal.startechDocs c5docs).length ∧
      ((GraphragFinal.darazDocs c5docs).map (fun d => d.doc_id) ++
        (GraphragFinal.startechDocs c5docs).map (fun d => d.doc_id)).Nodup) ∧
    ((AppChatRag2.search [⟨"p0", "t", "s", "c", 200, "", ""⟩, ⟨"p1", "u", "s", "c", 50, "", ""⟩]
        [[1], [0]] [1] [0, 0] ⟨none, none, none⟩ 1).length ≤ 1 ∧
      ((AppChatRag2.search [⟨"p0", "t", "s", "c", 200, "", ""⟩, ⟨"p1", "u", "s", "c", 50, "", ""⟩]
        [[1], [0]] [1] [0, 0] ⟨none, none, none⟩ 1).map (fun r => r.doc.doc_id)).Nodup ∧
      (GraphragFinal.search c5docs [1, 0] [1] 2).length ≤ 2 + 5 ∧
      ((GraphragFinal.search c5docs [1, 0] [1] 2).map (fun d => d.doc_id)).Nodup) :=
  ⟨⟨by decide, by decide, by decide, by decide⟩,
   c5_dedup_truncation _ [[1], [0]] [1] [0, 0] ⟨none, none, none⟩ 1 c5docs [1, 0] [1] 2
     (by decide) (by decide) (by decide) (by decide)⟩

/-- C7 counterexample: filter monotonicity fails under truncation.  With
top_k = 1, the unfiltered search returns only the expensive record p0,
while the search with maxPrice = 100 returns p1 — a record not in the
unfiltered result, so the filtered result set is not a subset. -/
theorem c7_subset_counterexample :
    ((AppChatRag2.search
        [⟨"p0", "t", "s", "c", 200, "", ""⟩, ⟨"p1", "u", "s", "c", 50, "", ""⟩]
        [[1], [0]] [1] [0, 0] ⟨some 100, none, none⟩ 1).map (fun r => r.doc.doc_id))
      = ["p1"] ∧
    ((AppChatRag2.search
        [⟨"p0", "t", "s", "c", 200, "", ""⟩, ⟨"p1", "u", "s", "c", 50, "", ""⟩]
        [[1], [0]] [1] [0, 0] ⟨none, none, none⟩ 1).map (fun r => r.doc.doc_id))
      = ["p0"] ∧
    ¬ ("p1" : String) ∈ ((AppChatRag2.search
        [⟨"p0", "t", "s", "c", 200, "", ""⟩, ⟨"p1", "u", "s", "c", 50, "", ""⟩]
        [[1], [0]] [1] [0, 0] ⟨none, none, none⟩ 1).map (fun r => r.doc.doc_id)) := by
  refine ⟨?_, ?_, ?_⟩ <;> decide

theorem finalScores_length (products : List AppChatRag2.ProductDoc)
    (corpusEmb : List (List ℚ)) (qEmb : List ℚ) (bm25Full : List ℚ)
    (f : AppChatRag2.Filters) :
    ((AppChatRag2.normArr ((AppChatRag2.validPairs products f).map
      (fun ip => Util.dotQ (corpusEmb.getD ip.1 []) qEmb))).zipWith
      (fun a b => Util.qadd (Util.qmul (mkRat 7 10) a) (Util.qmul (mkRat 3 10) b))
      (AppChatRag2.normArr ((AppChatRag2.validPairs products f).map
        (fun ip => bm25Full.getD ip.1 0)))).length =
    (AppChatRag2.validPairs products f).length := by
  rw [List.length_zipWith, normArr_length, normArr_length, List.length_map, List.length_map]
  omega

theorem searchChat_mem_doc (products : List AppChatRag2.ProductDoc)
    (corpusEmb : List (List ℚ)) (qEmb : List ℚ) (bm25Full : List ℚ)
    (f : AppChatRag2.Filters) (top_k : ℕ) :
    ∀ r ∈ AppChatRag2.search products corpusEmb qEmb bm25Full f top_k,
      ∃ ip ∈ AppChatRag2.validPairs products f, r.doc = ip.2 := by
  simp only [AppChatRag2.search]
  split
  · intro r hr; simp at hr
  · intro r hr
    have h1 : r ∈ Util.sortLe (fun a b => decide (b.score ≤ a.score))
        (((AppChatRag2.validPairs products f).zip _).map
          (fun pr => AppChatRag2.SearchResult.mk pr.1.2 pr.2 "")) :=
      (List.take_sublist _ _).subset hr
    have h2 := (sortLe_perm _ _).mem_iff.mp h1
    obtain ⟨pr, hpr, hmk⟩ := List.mem_map.mp h2
    refine ⟨pr.1, (List.of_mem_zip hpr).1, ?_⟩
    rw [← hmk]

theorem mem_validPairs_pass (products : List AppChatRag2.ProductDoc)
    (f : AppChatRag2.Filters) :
    ∀ ip ∈ AppChatRag2.validPairs products f,
      AppChatRag2.pricePass f ip.2 = true ∧ AppChatRag2.catPass f ip.2 = true := by
  intro ip hip
  have := List.mem_filter.mp hip
  have h := this.2
  simp only [Bool.and_eq_true] at h
  exact h

theorem searchChat_price_bound (products : List AppChatRag2.ProductDoc)
    (corpusEmb : List (List ℚ)) (qEmb : List ℚ) (bm25Full : List ℚ)
    (f : AppChatRag2.Filters) (top_k : ℕ) (X : ℚ)
    (hmax : f.max_price = some X) (hX : 0 < X) :
    ∀ r ∈ AppChatRag2.search products corpusEmb qEmb bm25Full f top_k,
      r.doc.price_value ≤ X := by
  intro r hr
  obtain ⟨ip, hip, hdoc⟩ := searchChat_mem_doc products corpusEmb qEmb bm25Full f top_k r hr
  have hpass := (mem_validPairs_pass products f ip hip).1
  rw [hdoc]
  simp only [AppChatRag2.pricePass, AppChatRag2.truthyQ, hmax, Option.getD_some,
    Bool.and_eq_true, Bool.not_eq_true'] at hpass
  have h1 := hpass.1
  by_contra hlt
  push_neg at hlt
  have hXne : (X ≠ 0) = True := by simp [ne_of_gt hX]
  simp [ne_of_gt hX, hlt] at h1

theorem searchChat_mem_ids (products : List AppChatRag2.ProductDoc)
    (corpusEmb : List (List ℚ)) (qEmb : List ℚ) (bm25Full : List ℚ)
    (f : AppChatRag2.Filters) (top_k : ℕ) :
    ∀ id ∈ (AppChatRag2.search products corpusEmb qEmb bm25Full f top_k).map
        (fun r => r.doc.doc_id),
      id ∈ (AppChatRag2.validPairs products f).map (fun ip => ip.2.doc_id) := by
  intro id hid
  obtain ⟨r, hr, hrid⟩ := List.mem_map.mp hid
  obtain ⟨ip, hip, hdoc⟩ := searchChat_mem_doc products corpusEmb qEmb bm25Full f top_k r hr
  refine List.mem_map.mpr ⟨ip, hip, ?_⟩
  rw [← hrid, hdoc]


theorem resultList_ids (products : List AppChatRag2.ProductDoc)
    (corpusEmb : List (List ℚ)) (qEmb : List ℚ) (bm25Full : List ℚ)
    (f : AppChatRag2.Filters) :
    List.map (fun r => r.doc.doc_id)
      (List.map (fun pr => AppChatRag2.SearchResult.mk pr.1.2 pr.2 "")
        (List.zip (AppChatRag2.validPairs products f)
          ((AppChatRag2.normArr ((AppChatRag2.validPairs products f).map
            (fun ip => Util.dotQ (corpusEmb.getD ip.1 []) qEmb))).zipWith
            (fun a b => Util.qadd (Util.qmul (mkRat 7 10) a) (Util.qmul (mkRat 3 10) b))
            (AppChatRag2.normArr ((AppChatRag2.validPairs products f).map
              (fun ip => bm25Full.getD ip.1 0)))))) =
    (AppChatRag2.validPairs products f).map (fun ip => ip.2.doc_id) := by
  rw [List.map_map]
  have hlen : (AppChatRag2.validPairs products f).length ≤
      ((AppChatRag2.normArr ((AppChatRag2.validPairs products f).map
        (fun ip => Util.dotQ (corpusEmb.getD ip.1 []) qEmb))).zipWith
        (fun a b => Util.qadd (Util.qmul (mkRat 7 10) a) (Util.qmul (mkRat 3 10) b))
        (AppChatRag2.normArr ((AppChatRag2.validPairs products f).map
          (fun ip => bm25Full.getD ip.1 0)))).length := by
    rw [finalScores_length]
  have hfst := List.map_fst_zip (AppChatRag2.validPairs products f)
    ((AppChatRag2.normArr ((AppChatRag2.validPairs products f).map
      (fun ip => Util.dotQ (corpusEmb.getD ip.1 []) qEmb))).zipWith
      (fun a b => Util.qadd (Util.qmul (mkRat 7 10) a) (Util.qmul (mkRat 3 10) b))
      (AppChatRag2.normArr ((AppChatRag2.validPairs products f).map
        (fun ip => bm25Full.getD ip.1 0)))) hlen
  calc _ = List.map (fun ip => ip.2.doc_id)
        (List.map Prod.fst
          (List.zip (AppChatRag2.validPairs products f)
            ((AppChatRag2.normArr ((AppChatRag2.validPairs products f).map
              (fun ip => Util.dotQ (corpusEmb.getD ip.1 []) qEmb))).zipWith
              (fun a b => Util.qadd (Util.qmul (mkRat 7 10) a) (Util.qmul (mkRat 3 10) b))
              (AppChatRag2.normArr ((AppChatRag2.validPairs products f).map
                (fun ip => bm25Full.getD ip.1 0)))))) := by rw [List.map_map]; rfl
    _ = (AppChatRag2.validPairs products f).map (fun ip => ip.2.doc_id) := by rw [hfst]

theorem searchChat_mem_ids_full (products : List AppChatRag2.ProductDoc)
    (corpusEmb : List (List ℚ)) (qEmb : List ℚ) (bm25Full : List ℚ)
    (f : AppChatRag2.Filters) (top_k : ℕ) (htr : products.length ≤ top_k) :
    ∀ id ∈ (AppChatRag2.validPairs products f).map (fun ip => ip.2.doc_id),
      id ∈ (AppChatRag2.search products corpusEmb qEmb bm25Full f top_k).map
        (fun r => r.doc.doc_id) := by
  intro id hid
  simp only [AppChatRag2.search]
  split
  · next hempty =>
    rw [List.isEmpty_iff.mp hempty] at hid
    simp at hid
  · have hvlen : (AppChatRag2.validPairs products f).length ≤ top_k := by
      have h1 : (AppChatRag2.validPairs products f).length ≤ products.enum.length :=
        List.length_filter_le _ _
      rw [List.enum_length] at h1
      omega
    have hLlen : ((((AppChatRag2.validPairs products f).zip
        ((AppChatRag2.normArr ((AppChatRag2.validPairs products f).map
          (fun ip => Util.dotQ (corpusEmb.getD ip.1 []) qEmb))).zipWith
          (fun a b => Util.qadd (Util.qmul (mkRat 7 10) a) (Util.qmul (mkRat 3 10) b))
          (AppChatRag2.normArr ((AppChatRag2.validPairs products f).map
            (fun ip => bm25Full.getD ip.1 0))))).map
        (fun pr => AppChatRag2.SearchResult.mk pr.1.2 pr.2 ""))).length ≤ top_k := by
      rw [List.length_map, List.length_zip, finalScores_length]
      omega
    rw [List.take_of_length_le (by rw [sortLe_length]; exact hLlen)]
    refine (((sortLe_perm _ _).map
      (fun r : AppChatRag2.SearchResult => r.doc.doc_id)).mem_iff).mpr ?_
    rw [resultList_ids]
    exact hid

theorem collectValid_sound (docs : List AppGraphRag.ProductDoc) (mp : Option ℚ)
    (top_k : ℕ) :
    ∀ (cands : List String) (acc : List AppGraphRag.ProductDoc),
      (∀ a ∈ acc, AppGraphRag.priceValid mp a.price_value = true) →
      ∀ r ∈ AppGraphRag.collectValid docs mp top_k cands acc,
        AppGraphRag.priceValid mp r.price_value = true := by
  intro cands
  induction cands with
  | nil => intro acc hacc r hr; exact hacc r hr
  | cons id rest ih =>
    intro acc hacc r hr
    simp only [AppGraphRag.collectValid] at hr
    rcases hl : AppGraphRag.lookupDoc docs id with _ | p
    · rw [hl] at hr
      exact ih acc hacc r hr
    · rw [hl] at hr
      simp only at hr
      by_cases hv : AppGraphRag.priceValid mp p.price_value = true
      · rw [if_pos hv] at hr
        by_cases hb : top_k ≤ (acc ++ [p]).length
        · rw [if_pos hb] at hr
          rcases List.mem_append.mp hr with h | h
          · exact hacc r h
          · rw [List.mem_singleton.mp h]
            exact hv
        · rw [if_neg hb] at hr
          refine ih (acc ++ [p]) ?_ r hr
          intro a ha
          rcases List.mem_append.mp ha with h | h
          · exact hacc a h
          · rw [List.mem_singleton.mp h]
            exact hv
      · rw [if_neg hv] at hr
        exact ih acc hacc r hr

theorem collectValid_no_trunc (docs : List AppGraphRag.ProductDoc) (mp : Option ℚ) :
    ∀ (cands : List String) (acc : List AppGraphRag.ProductDoc) (top_k : ℕ),
      acc.length + cands.length ≤ top_k →
      AppGraphRag.collectValid docs mp top_k cands acc =
        acc ++ (cands.filterMap (AppGraphRag.lookupDoc docs)).filter
          (fun p => AppGraphRag.priceValid mp p.price_value) := by
  intro cands
  induction cands with
  | nil => intro acc top_k _; simp [AppGraphRag.collectValid]
  | cons id rest ih =>
    intro acc top_k hb
    simp only [AppGraphRag.collectValid]
    rcases hl : AppGraphRag.lookupDoc docs id with _ | p
    · rw [List.filterMap_cons_none hl]
      exact ih acc top_k (by simp at hb; omega)
    · rw [List.filterMap_cons_some hl]
      simp only
      by_cases hv : AppGraphRag.priceValid mp p.price_value = true
      · rw [if_pos hv]
        simp only [List.filter_cons, hv, if_true]
        by_cases hbreak : top_k ≤ (acc ++ [p]).length
        · rw [if_pos hbreak]
          have hrest : rest = [] := by
            rw [List.length_append, List.length_singleton] at hbreak
            simp only [List.length_cons] at hb
            have : rest.length = 0 := by omega
            exact List.length_eq_zero.mp this
          subst hrest
          simp
        · rw [if_neg hbreak]
          rw [ih (acc ++ [p]) top_k (by
            have h1 : (acc ++ [p]).length = acc.length + 1 := by simp
            simp only [List.length_cons] at hb
            omega)]
          simp
      · rw [if_neg hv]
        simp only [List.filter_cons, eq_false_of_ne_true hv, if_false]
        exact ih acc top_k (by simp only [List.length_cons] at hb; omega)

theorem priceValid_none (pv : Option ℚ) : AppGraphRag.priceValid none pv = true := rfl

theorem priceValid_bound (X : ℚ) (pv : Option ℚ) (hX : 0 < X)
    (h : AppGraphRag.priceValid (some X) pv = true)
    (ht : AppGraphRag.truthyQ pv = true) : pv.getD 0 ≤ X := by
  rcases pv with _ | v
  · simp [AppGraphRag.truthyQ] at ht
  · have hv : v ≠ 0 := by simpa [AppGraphRag.truthyQ] using ht
    simp only [Option.getD_some]
    by_contra hlt
    push_neg at hlt
    simp [AppGraphRag.priceValid, AppGraphRag.truthyQ, ne_of_gt hX, hv, hlt] at h

theorem catPass_relax (f : AppChatRag2.Filters) (p : AppChatRag2.ProductDoc) :
    AppChatRag2.catPass ⟨none, f.min_price, f.category⟩ p = AppChatRag2.catPass f p := rfl

theorem pricePass_relax (f : AppChatRag2.Filters) (p : AppChatRag2.ProductDoc)
    (h : AppChatRag2.pricePass f p = true) :
    AppChatRag2.pricePass ⟨none, f.min_price, f.category⟩ p = true := by
  simp only [AppChatRag2.pricePass, AppChatRag2.truthyQ, Bool.and_eq_true] at h ⊢
  refine ⟨by simp [AppChatRag2.truthyQ], h.2⟩

theorem validPairs_relax (products : List AppChatRag2.ProductDoc)
    (f : AppChatRag2.Filters) :
    ∀ ip ∈ AppChatRag2.validPairs products f,
      ip ∈ AppChatRag2.validPairs products ⟨none, f.min_price, f.category⟩ := by
  intro ip hip
  have h := List.mem_filter.mp hip
  refine List.mem_filter.mpr ⟨h.1, ?_⟩
  have h2 := h.2
  simp only [Bool.and_eq_true] at h2 ⊢
  exact ⟨pricePass_relax f ip.2 h2.1, (catPass_relax f ip.2).symm ▸ h2.2⟩

/-- C7 amended: every record returned under a positive maxPrice filter has
price at most that bound (in app_chat_rag2 unconditionally, in
app_graph_rag for records with a known nonzero price), and the result set
under maxPrice is a subset of the unfiltered result set whenever topK does
not truncate (topK at least the corpus size, resp. the candidate count).
Under truncation the subset property fails, as the counterexample shows,
because filtering changes the candidate pool before normalization and
cutoff. -/
theorem c7_filter_monotonicity
    (products : List AppChatRag2.ProductDoc) (corpusEmb : List (List ℚ)) (qEmb : List ℚ)
    (bm25Full : List ℚ) (f : AppChatRag2.Filters) (top_k : ℕ) (X : ℚ)
    (docsG : List AppGraphRag.ProductDoc) (candidates : List String) (top_kG : ℕ)
    (hX : 0 < X) (hmax : f.max_price = some X)
    (htr : products.length ≤ top_k) (htrG : candidates.length ≤ top_kG) :
    (∀ r ∈ AppChatRag2.search products corpusEmb qEmb bm25Full f top_k,
      r.doc.price_value ≤ X) ∧
    (∀ id ∈ (AppChatRag2.search products corpusEmb qEmb bm25Full f top_k).map
        (fun r => r.doc.doc_id),
      id ∈ (AppChatRag2.search products corpusEmb qEmb bm25Full
        ⟨none, f.min_price, f.category⟩ top_k).map (fun r => r.doc.doc_id)) ∧
    (∀ r ∈ AppGraphRag.graph_rag_search docsG candidates (some X) top_kG,
      AppGraphRag.truthyQ r.price_value = true → r.price_value.getD 0 ≤ X) ∧
    (∀ r ∈ AppGraphRag.graph_rag_search docsG candidates (some X) top_kG,
      r ∈ AppGraphRag.graph_rag_search docsG candidates none top_kG) := by
  refine ⟨searchChat_price_bound products corpusEmb qEmb bm25Full f top_k X hmax hX,
    ?_, ?_, ?_⟩
  · intro id hid
    have h1 := searchChat_mem_ids products corpusEmb qEmb bm25Full f top_k id hid
    obtain ⟨ip, hip, hipid⟩ := List.mem_map.mp h1
    refine searchChat_mem_ids_full products corpusEmb qEmb bm25Full
      ⟨none, f.min_price, f.category⟩ top_k htr id ?_
    exact List.mem_map.mpr ⟨ip, validPairs_relax products f ip hip, hipid⟩
  · intro r hr ht
    have hv := collectValid_sound docsG (some X) top_kG candidates []
      (by intro a ha; simp at ha) r hr
    exact priceValid_bound X r.price_value hX hv ht
  · intro r hr
    rw [AppGraphRag.graph_rag_search, collectValid_no_trunc docsG (some X) candidates []
      top_kG (by simpa using htrG)] at hr
    rw [AppGraphRag.graph_rag_search, collectValid_no_trunc docsG none candidates []
      top_kG (by simpa using htrG)]
    simp only [List.nil_append] at hr ⊢
    exact List.mem_filter.mpr ⟨List.mem_of_mem_filter hr, priceValid_none _⟩

theorem c7_filter_monotonicity_witness :
    ((0 : ℚ) < 100 ∧
      (2 : ℕ) ≤ 2 ∧ (2 : ℕ) ≤ 5) ∧
    ((∀ r ∈ AppChatRag2.search
        [⟨"p0", "t", "s", "c", 200, "", ""⟩, ⟨"p1", "u", "s", "c", 50, "", ""⟩]
        [[1], [0]] [1] [0, 0] ⟨some 100, none, none⟩ 2, r.doc.price_value ≤ 100) ∧
      (∀ id ∈ (AppChatRag2.search
          [⟨"p0", "t", "s", "c", 200, "", ""⟩, ⟨"p1", "u", "s", "c", 50, "", ""⟩]
          [[1], [0]] [1] [0, 0] ⟨some 100, none, none⟩ 2).map (fun r => r.doc.doc_id),
        id ∈ (AppChatRag2.search
          [⟨"p0", "t", "s", "c", 200, "", ""⟩, ⟨"p1", "u", "s", "c", 50, "", ""⟩]
          [[1], [0]] [1] [0, 0] ⟨none, none, none⟩ 2).map (fun r => r.doc.doc_id)) ∧
      (∀ r ∈ AppGraphRag.graph_rag_search
          [⟨"g0", "t", "s", "c", some 200, none, none, "", "", []⟩,
           ⟨"g1", "u", "s", "c", some 50, none, none, "", "", []⟩]
          ["g0", "g1"] (some 100) 5,
        AppGraphRag.truthyQ r.price_value = true → r.price_value.getD 0 ≤ 100) ∧
      (∀ r ∈ AppGraphRag.graph_rag_search
          [⟨"g0", "t", "s", "c", some 200, none, none, "", "", []⟩,
           ⟨"g1", "u", "s", "c", some 50, none, none, "", "", []⟩]
          ["g0", "g1"] (some 100) 5,
        r ∈ AppGraphRag.graph_rag_search
          [⟨"g0", "t", "s", "c", some 200, none, none, "", "", []⟩,
           ⟨"g1", "u", "s", "c", some 50, none, none, "", "", []⟩]
          ["g0", "g1"] none 5)) :=
  ⟨⟨by decide, by decide, by decide⟩,
   c7_filter_monotonicity
     [⟨"p0", "t", "s", "c", 200, "", ""⟩, ⟨"p1", "u", "s", "c", 50, "", ""⟩]
     [[1], [0]] [1] [0, 0] ⟨some 100, none, none⟩ 2 100
     [⟨"g0", "t", "s", "c", some 200, none, none, "", "", []⟩,
      ⟨"g1", "u", "s", "c", some 50, none, none, "", "", []⟩]
     ["g0", "g1"] 5 (by decide) rfl (by decide) (by decide)⟩
